import Mathlib

/-!
The `mac.changer` session module (`modules/mac_changer.go`)

A shallow embedding of `MacChanger.Configure`, `MacChanger.setMac`,
`MacChanger.Start` and `MacChanger.Stop`.

The module talks to four collaborators that live outside `mac_changer.go`:
the parameter store (`mc.StringParam`), the address helpers
(`bnet.NormalizeMac`, `net.ParseMAC`), the process runner (`core.Exec`) and
the process-global `runtime.GOOS`.  They are inputs of the embedding:

* `Env` carries what is fixed during a run: `GOOS`, `NormalizeMac`, `ParseMAC`;
* what `mc.StringParam("mac.changer.address")` answers at one call is the
  argument `param` of `Configure` / `Start`;
* the process runner is the argument `run` of `setMac` / `Start` / `Stop`.

Every operation returns an `Outcome`: the Go `error` (or `none` for `nil`),
the module after the call, and the list of collaborator calls it made, in
order.  `log.Info` only prints; it is not part of the embedding.

For the claims about address resolution the collaborators are given values:
`ParseMAC` follows `net.ParseMAC` of Go's standard library, `StringParam` and
`NormalizeMac` are modelled from the specification, and `goEnv` puts them
together.
-/

namespace MacChanger

/-! ## Data model -/

/-- Go `net.HardwareAddr` (`[]byte`): a list of octets, the nil slice being `[]`.
No code of the module writes into the bytes of an address, so slices that share
storage in Go behave as values. -/
abbrev HardwareAddr := List Nat

/-- An `error` value produced by a collaborator (`mc.StringParam`,
`net.ParseMAC`, `core.Exec`), identified by its message. -/
structure ExtError where
  msg : String
  deriving DecidableEq, Repr

/-- The `error` values `Start`, `Stop`, `Configure` and `setMac` can return. -/
inductive Error where
  /-- The value `session.ErrAlreadyStarted`. -/
  | ErrAlreadyStarted
  /-- The value `session.ErrAlreadyStopped`. -/
  | ErrAlreadyStopped
  /-- The value `fmt.Errorf("OS %s not supported by mac.changer module.", os)`. -/
  | unsupportedOS (os : String)
  /-- An error of a collaborator, returned as it came. -/
  | foreign (e : ExtError)
  deriving DecidableEq, Repr

/-- A call the module makes to a collaborator. -/
inductive Event where
  /-- The call `mc.StringParam(name)`. -/
  | StringParam (name : String)
  /-- The call `core.Exec(executable, args)`. -/
  | Exec (executable : String) (args : List String)
  deriving DecidableEq, Repr

/-- The process runner `core.Exec(executable, args)`: its `error` result
(`none` for `nil`).  The output string is discarded by `setMac`. -/
abbrev Runner := String → List String → Option ExtError

/-- What is fixed during a run of the program. -/
structure Env where
  /-- The constant `runtime.GOOS`. -/
  GOOS : String
  /-- The function `bnet.NormalizeMac`. -/
  NormalizeMac : String → String
  /-- The function `net.ParseMAC`: the pair `(hw, err)` it returns. -/
  ParseMAC : String → HardwareAddr × Option ExtError

/-- The part of `mc.Session.Interface` the module uses. -/
structure Endpoint where
  /-- The string `mc.Session.Interface.Name()` returns. -/
  name : String
  /-- The field `mc.Session.Interface.HW`. -/
  HW : HardwareAddr
  deriving DecidableEq, Repr

end MacChanger

/-- The Go struct `MacChanger`, with the `Started` flag of the embedded
`session.SessionModule` (read by `Running()`, written by `SetRunning`) and the
session's interface. -/
structure MacChanger where
  Started : Bool
  originalMac : MacChanger.HardwareAddr
  fakeMac : MacChanger.HardwareAddr
  Interface : MacChanger.Endpoint
  deriving DecidableEq, Repr

namespace MacChanger

/-- Result of one operation: the returned `error`, the module afterwards, and
the collaborator calls made, oldest first. -/
structure Outcome where
  err : Option Error
  mc : MacChanger
  calls : List Event
  deriving DecidableEq, Repr

/-! ## Library functions used by `setMac` -/

/-- Go `strings.Contains(s, substr)`. -/
def stringsContains (s substr : String) : Bool :=
  s.toList.tails.any (fun t => substr.toList.isPrefixOf t)

/-- The constant `hexDigit = "0123456789abcdef"` of package `net`, as its
characters. -/
def hexDigit : List Char :=
  "0123456789abcdef".toList

/-- The two characters `hexDigit[b>>4]`, `hexDigit[b&0xF]` of one octet. -/
def hexOctet (b : Nat) : List Char :=
  [hexDigit.getD (b / 16 % 16) '0', hexDigit.getD (b % 16) '0']

/-- The buffer built by the loop of `HardwareAddr.String`: a `':'` before every
octet but the first (`first` tells whether the next octet is the first), then
its two hex digits. -/
def hwChars : Bool → List Nat → List Char
  | _, [] => []
  | first, b :: rest => (if first then [] else [':']) ++ hexOctet b ++ hwChars false rest

/-- Go `net.HardwareAddr.String`: `""` for an empty address, else the octets in
lower-case hex separated by `':'`. -/
def HardwareAddr.String (a : HardwareAddr) : String :=
  if a.length = 0 then "" else String.mk (hwChars true a)

/-! ## The module's operations -/

/-- The method `MacChanger.Configure`; `param` is what `mc.StringParam` answers. -/
def Configure (env : Env) (param : Except ExtError String) (mc : MacChanger) : Outcome :=
  match param with
  | .error e => ⟨some (.foreign e), mc, [.StringParam "mac.changer.address"]⟩
  | .ok changeTo =>
    let changeTo := env.NormalizeMac changeTo
    let r := env.ParseMAC changeTo
    -- `mc.fakeMac, err = net.ParseMAC(changeTo)` stores the address before `err` is tested
    let mc := { mc with fakeMac := r.1 }
    match r.2 with
    | some e => ⟨some (.foreign e), mc, [.StringParam "mac.changer.address"]⟩
    | none =>
      ⟨none, { mc with originalMac := mc.Interface.HW }, [.StringParam "mac.changer.address"]⟩

/-- The method `MacChanger.setMac`; `run` is `core.Exec`. -/
def setMac (env : Env) (run : Runner) (mac : HardwareAddr) (mc : MacChanger) : Outcome :=
  let os := env.GOOS
  let args : Option (List String) :=
    if stringsContains os "bsd" = true ∨ os = "darwin" then
      some [mc.Interface.name, "ether", mac.String]
    else if os = "linux" then
      some [mc.Interface.name, "hw", "ether", mac.String]
    else
      none
  match args with
  | none => ⟨some (.unsupportedOS os), mc, []⟩
  | some args =>
    match run "ifconfig" args with
    | none => ⟨none, { mc with Interface := { mc.Interface with HW := mac } },
        [.Exec "ifconfig" args]⟩
    | some e => ⟨some (.foreign e), mc, [.Exec "ifconfig" args]⟩

/-- The method `MacChanger.Start`. -/
def Start (env : Env) (param : Except ExtError String) (run : Runner) (mc : MacChanger) :
    Outcome :=
  if mc.Started = true then
    ⟨some .ErrAlreadyStarted, mc, []⟩
  else
    let c := Configure env param mc
    match c.err with
    | some e => ⟨some e, c.mc, c.calls⟩
    | none =>
      let r := setMac env run c.mc.fakeMac c.mc
      match r.err with
      | some e => ⟨some e, r.mc, c.calls ++ r.calls⟩
      | none => ⟨none, { r.mc with Started := true }, c.calls ++ r.calls⟩

/-- The method `MacChanger.Stop`. -/
def Stop (env : Env) (run : Runner) (mc : MacChanger) : Outcome :=
  if mc.Started = false then
    ⟨some .ErrAlreadyStopped, mc, []⟩
  else
    let r := setMac env run mc.originalMac mc
    match r.err with
    | some e => ⟨some e, r.mc, r.calls⟩
    | none => ⟨none, { r.mc with Started := false }, r.calls⟩

/-- The value `NewMacChanger` builds: not running, both addresses nil, attached
to the session's interface. -/
def NewMacChanger (iface : Endpoint) : MacChanger :=
  ⟨false, [], [], iface⟩

/-- The operating systems for which `setMac` builds a command. -/
def supportedOS (os : String) : Prop :=
  stringsContains os "bsd" = true ∨ os = "darwin" ∨ os = "linux"

instance (os : String) : Decidable (supportedOS os) := by
  unfold supportedOS; infer_instance

/-! ## Sequences of calls -/

/-- One call of a method of the module, with what the collaborators answer
during that call. -/
inductive Call where
  | Configure (param : Except ExtError String)
  | Start (param : Except ExtError String) (run : Runner)
  | Stop (run : Runner)

/-- The outcome of one call. -/
def step (env : Env) (mc : MacChanger) : Call → Outcome
  | .Configure param => Configure env param mc
  | .Start param run => Start env param run mc
  | .Stop run => Stop env run mc

/-- The module together with a history variable: `preStart` is the interface's
hardware address as it was just before the latest `Start` that returned `nil`. -/
structure Tracked where
  mc : MacChanger
  preStart : HardwareAddr
  deriving DecidableEq, Repr

/-- One call, keeping the history variable up to date. -/
def stepTracked (env : Env) (t : Tracked) (c : Call) : Tracked :=
  let o := step env t.mc c
  match c, o.err with
  | .Start _ _, none => ⟨o.mc, t.mc.Interface.HW⟩
  | _, _ => ⟨o.mc, t.preStart⟩

/-- A sequence of calls, oldest first. -/
def runTracked (env : Env) (t : Tracked) (cs : List Call) : Tracked :=
  cs.foldl (stepTracked env) t

/-- No call of `Configure` made directly (outside `Start`) returns `nil` while
the module is running, along the sequence `cs` started in `mc`. -/
def configureGuarded (env : Env) : MacChanger → List Call → Bool
  | _, [] => true
  | mc, c :: cs =>
    (match c with
      | .Configure param => !(mc.Started && (Configure env param mc).err.isNone)
      | _ => true)
    && configureGuarded env (step env mc c).mc cs

/-! ## Test doubles for the collaborators -/

/-- A stand-in for `net.ParseMAC` that knows one address: it answers
`11:22:33:44:55:66` with its six octets and everything else with the nil
address and an error, as `net.ParseMAC` answers a string it rejects. -/
def stubParseMAC (s : String) : HardwareAddr × Option ExtError :=
  if s = "11:22:33:44:55:66" then ([0x11, 0x22, 0x33, 0x44, 0x55, 0x66], none)
  else ([], some ⟨"invalid MAC address"⟩)

/-- An environment for the given operating system, with `stubParseMAC` and a
`NormalizeMac` that returns its argument. -/
def stubEnv (os : String) : Env :=
  ⟨os, fun s => s, stubParseMAC⟩

/-- A process runner that always succeeds. -/
def runOk : Runner := fun _ _ => none

/-- A process runner that always fails with `e`. -/
def runFail (e : ExtError) : Runner := fun _ _ => some e

/-- The interface `eth0` with hardware address `00:01:02:03:04:05`. -/
def eth0 : Endpoint := ⟨"eth0", [0, 1, 2, 3, 4, 5]⟩

/-! ## The trace of external commands -/

/-- The argument list `setMac` builds for the operating system `os`, the
interface name `name` and the address `mac`; `none` where `setMac` returns the
unsupported-platform error. -/
def ifconfigArgs (os name : String) (mac : HardwareAddr) : Option (List String) :=
  if stringsContains os "bsd" = true ∨ os = "darwin" then
    some [name, "ether", HardwareAddr.String mac]
  else if os = "linux" then
    some [name, "hw", "ether", HardwareAddr.String mac]
  else
    none

/-- The invocations of the process runner among the collaborator calls. -/
def execCalls (calls : List Event) : List Event :=
  calls.filter (fun ev => match ev with
    | .Exec _ _ => true
    | .StringParam _ => false)

/-! ## Sequences of `Start` and `Stop` calls -/

/-- A run of `Stop` calls, one for each runner of `runs`, oldest first. -/
def stopAll (env : Env) (mc : MacChanger) (runs : List Runner) : MacChanger :=
  runs.foldl (fun m run => (Stop env run m).mc) mc

/-- The module together with a history variable: `started` tells whether some
`Start` has returned `nil` so far. -/
structure History where
  mc : MacChanger
  started : Bool
  deriving DecidableEq, Repr

/-- One call, keeping the history variable up to date. -/
def stepHistory (env : Env) (h : History) (c : Call) : History :=
  let o := step env h.mc c
  match c, o.err with
  | .Start _ _, none => ⟨o.mc, true⟩
  | _, _ => ⟨o.mc, h.started⟩

/-- A sequence of calls, oldest first. -/
def runHistory (env : Env) (h : History) (cs : List Call) : History :=
  cs.foldl (stepHistory env) h

/-- The sequence `cs` holds calls of `Start` and `Stop` only: `Configure` is
reached through `Start` alone. -/
def startStopOnly (cs : List Call) : Bool :=
  cs.all (fun c => match c with
    | .Configure _ => false
    | .Start _ _ => true
    | .Stop _ => true)

/-! ## Address parsing: Go's `net.ParseMAC` -/

/-- The bytes of a Go string: the UTF-8 encoding of its characters. -/
def goBytes (s : String) : List Nat :=
  s.toList.flatMap (fun c => (String.utf8EncodeChar c).map UInt8.toNat)

/-- The constant `big = 0xFFFFFF` of package `net`. -/
def big : Nat := 0xFFFFFF

/-- The value of the hex digit `c`, by the three ranges `xtoi` tests
(`'0'..'9'`, `'a'..'f'`, `'A'..'F'`); `none` where `xtoi` breaks out of its
loop. -/
def hexValue (c : Nat) : Option Nat :=
  if '0'.toNat ≤ c ∧ c ≤ '9'.toNat then some (c - '0'.toNat)
  else if 'a'.toNat ≤ c ∧ c ≤ 'f'.toNat then some (c - 'a'.toNat + 10)
  else if 'A'.toNat ≤ c ∧ c ≤ 'F'.toNat then some (c - 'A'.toNat + 10)
  else none

/-- The loop of `xtoi` from index `i` with accumulator `n`, over the bytes not
yet read: the result is `(n, i, ok)`. -/
def xtoiLoop : List Nat → Nat → Nat → Nat × Nat × Bool
  | [], n, i => if i = 0 then (0, i, false) else (n, i, true)
  | c :: rest, n, i =>
    match hexValue c with
    | some d =>
      if n * 16 + d ≥ big then (0, i, false) else xtoiLoop rest (n * 16 + d) (i + 1)
    | none => if i = 0 then (0, i, false) else (n, i, true)

/-- Go `xtoi` of package `net`: hexadecimal to integer; returns the number, the
characters consumed and success. -/
def xtoi (s : List Nat) : Nat × Nat × Bool :=
  xtoiLoop s 0 0

/-- Go `xtoi2` of package `net`: the next two hex digits of `s` as a byte; when
`s` is longer than two bytes the third must be `e`. -/
def xtoi2 (s : List Nat) (e : Nat) : Nat × Bool :=
  if s.length > 2 ∧ s.getD 2 0 ≠ e then (0, false)
  else ((xtoi (s.take 2)).1 % 256, (xtoi (s.take 2)).2.2 && (xtoi (s.take 2)).2.1 == 2)

/-- The loop of `ParseMAC` for the forms `01:23:…` and `01-23-…`: `n` octets
still to read from `s[x:]`, the separator being `e`; `none` is `goto error`. -/
def parseColonLoop (e : Nat) : Nat → List Nat → Option (List Nat)
  | 0, _ => some []
  | n + 1, s =>
    match xtoi2 s e with
    | (b, true) => (parseColonLoop e n (s.drop 3)).map (fun hw => b :: hw)
    | (_, false) => none

/-- The loop of `ParseMAC` for the form `0123.4567.…`: `k` groups of two octets
still to read from `s[x:]`, the separator being `e`; `none` is `goto error`. -/
def parseDotLoop (e : Nat) : Nat → List Nat → Option (List Nat)
  | 0, _ => some []
  | k + 1, s =>
    match xtoi2 (s.take 2) 0 with
    | (_, false) => none
    | (b0, true) =>
      match xtoi2 (s.drop 2) e with
      | (_, false) => none
      | (b1, true) => (parseDotLoop e k (s.drop 5)).map (fun hw => b0 :: b1 :: hw)

/-- The body of Go `net.ParseMAC` on the bytes of its argument: the address, or
`none` where it jumps to the `error` label. -/
def ParseMACBytes (s : List Nat) : Option (List Nat) :=
  if s.length < 14 then none
  else if s.getD 2 0 = ':'.toNat ∨ s.getD 2 0 = '-'.toNat then
    if (s.length + 1) % 3 ≠ 0 then none
    else if (s.length + 1) / 3 ≠ 6 ∧ (s.length + 1) / 3 ≠ 8 ∧ (s.length + 1) / 3 ≠ 20 then none
    else parseColonLoop (s.getD 2 0) ((s.length + 1) / 3) s
  else if s.getD 4 0 = '.'.toNat then
    if (s.length + 1) % 5 ≠ 0 then none
    else if 2 * (s.length + 1) / 5 ≠ 6 ∧ 2 * (s.length + 1) / 5 ≠ 8 ∧
        2 * (s.length + 1) / 5 ≠ 20 then none
    else parseDotLoop (s.getD 4 0) (2 * (s.length + 1) / 5 / 2) s
  else none

/-- Go `net.ParseMAC`: the pair `(hw, err)`; at the `error` label it returns the
nil address and an `AddrError`. -/
def ParseMAC (s : String) : HardwareAddr × Option ExtError :=
  match ParseMACBytes (goBytes s) with
  | some hw => (hw, none)
  | none => ([], some ⟨"address " ++ s ++ ": invalid MAC address"⟩)

/-! ## The parameter `mac.changer.address` and address normalisation -/

/-- A character of the class `[a-fA-F0-9]`. -/
def isHexRune (c : Char) : Bool :=
  ('a'.toNat ≤ c.toNat && c.toNat ≤ 'f'.toNat) || ('A'.toNat ≤ c.toNat && c.toNat ≤ 'F'.toNat) ||
    ('0'.toNat ≤ c.toNat && c.toNat ≤ '9'.toNat)

/-- The characters `cs` start with `k` groups `[a-fA-F0-9]{2}` joined by `':'`. -/
def matchPairs : Nat → List Char → Bool
  | 0, _ => true
  | 1, a :: b :: _ => isHexRune a && isHexRune b
  | k + 2, a :: b :: c :: rest =>
    isHexRune a && isHexRune b && c == ':' && matchPairs (k + 1) rest
  | _, _ => false

/-- The validator `NewMacChanger` registers for `mac.changer.address`, the
pattern `[a-fA-F0-9]{2}:[a-fA-F0-9]{2}:[a-fA-F0-9]{2}:[a-fA-F0-9]{2}:[a-fA-F0-9]{2}:[a-fA-F0-9]{2}`,
matched as Go's `regexp.MatchString` matches: the pattern carries no `^` or `$`,
so it matches when some part of `value` has that form. -/
def addressRule (value : String) : Bool :=
  value.toList.tails.any (matchPairs 6)

/-- Modelled from the spec: the constant `session.ParamRandomMAC` is not under
`src/`.  It is the default `NewMacChanger` gives `mac.changer.address`, the
sentinel of the spec that asks for an address generated at random. -/
def ParamRandomMAC : String := "<random mac>"

/-- Modelled from the spec: the address generated for the sentinel is not under
`src/`.  The spec: six random octets, with the multicast bit (bit 0 of the first
octet) cleared and the locally-administered bit (bit 1 of the first octet) set.
`random i` is the `i`-th value the random source gives; `b / 4 * 4 + 2` keeps
the six upper bits of `b`, sets bit 1 and clears bit 0. -/
def randomMAC (random : Nat → Nat) : HardwareAddr :=
  [random 0 % 256 / 4 * 4 + 2, random 1 % 256, random 2 % 256, random 3 % 256,
    random 4 % 256, random 5 % 256]

/-- Modelled from the spec: `mc.StringParam` and the parameter store of package
`session` are not under `src/`.  The spec has the configured value read and then
resolved: the sentinel stands for an address generated at random, any other
value is the address text itself, and a text outside the grammar fails when it is
resolved (`InvalidAddress`), not when it is read.  `value` is what the session
holds for `mac.changer.address` and `random` is the random source; the answer is
the text of a random address for the sentinel and `value` itself otherwise.
What the validator registered by `NewMacChanger` makes of a value is
`addressRule`. -/
def StringParam (random : Nat → Nat) (value : String) : Except ExtError String :=
  if value = ParamRandomMAC then .ok (HardwareAddr.String (randomMAC random))
  else .ok value

/-- The characters of `ds` in groups of two. -/
def pairUp : List Char → List (List Char)
  | a :: b :: rest => [a, b] :: pairUp rest
  | [a] => [[a]]
  | [] => []

/-- Modelled from the spec: `bnet.NormalizeMac` is not under `src/`.  The spec
has the address normalised before it is parsed: separators are normalised
(`':'`, `'-'` or no separator are accepted) and the case is unified.  Here the
separators `':'` and `'-'` are dropped, the remaining characters are put in
lower case and written in groups of two joined by `':'`. -/
def NormalizeMac (mac : String) : String :=
  String.mk (List.intercalate [':']
    (pairUp ((mac.toList.filter (fun c => c != ':' && c != '-')).map Char.toLower)))

/-- The environment of the program on the operating system `os`: Go's
`net.ParseMAC` and the normalisation above. -/
def goEnv (os : String) : Env :=
  ⟨os, NormalizeMac, ParseMAC⟩

/-! ## Spellings of an address -/

/-- The text made of the characters `ds` in groups of two joined by `sep`. -/
def spell (sep : List Char) (ds : List Char) : String :=
  String.mk (List.intercalate sep (pairUp ds))

/-- The value of the hex digit `c` (`0` for another character). -/
def digitValue (c : Char) : Nat :=
  (hexValue c.toNat).getD 0

/-- The octets hex digits denote, two digits to an octet. -/
def octetsOf : List Char → List Nat
  | a :: b :: rest => (digitValue a * 16 + digitValue b) :: octetsOf rest
  | _ => []

/-! ## Facts about the library functions -/

/-- The function `stringsContains` decides whether `substr` occurs in `s` as a
block of consecutive characters. -/
theorem stringsContains_iff (s substr : String) :
    stringsContains s substr = true ↔ substr.toList <:+: s.toList := by
  simp only [stringsContains, List.any_eq_true, List.mem_tails, List.isPrefixOf_iff_prefix,
    List.infix_iff_prefix_suffix]
  constructor
  · rintro ⟨t, h1, h2⟩
    exact ⟨t, h2, h1⟩
  · rintro ⟨t, h1, h2⟩
    exact ⟨t, h2, h1⟩

/-- The characters `hwChars` produces are the octets' hex pairs joined by
`':'`. -/
theorem hwChars_eq (b : Nat) (rest : List Nat) :
    hwChars true (b :: rest) = List.intercalate [':'] ((b :: rest).map hexOctet) := by
  have key : ∀ l : List Nat, hwChars false l = (l.map (fun x => ':' :: hexOctet x)).flatten := by
    intro l
    induction l with
    | nil => rfl
    | cons x xs ih => simp [hwChars, ih]
  have inter : ∀ (x : List Char) (l : List (List Char)),
      (List.intersperse [':'] (x :: l)).flatten = x ++ (l.map (fun y => ':' :: y)).flatten := by
    intro x l
    induction l generalizing x with
    | nil => simp
    | cons y ys ih => simp [List.intersperse, ih]
  simp only [List.intercalate, List.map_cons, inter, hwChars, key, List.map_map]
  simp [Function.comp_def]

/-- The two characters of an octet are lower-case hex digits. -/
theorem hexOctet_mem (b : Nat) (c : Char) (h : c ∈ hexOctet b) : c ∈ hexDigit := by
  have h1 : b / 16 % 16 < 16 := Nat.mod_lt _ (by norm_num)
  have h2 : b % 16 < 16 := Nat.mod_lt _ (by norm_num)
  simp only [hexOctet, List.mem_cons, List.mem_singleton, List.not_mem_nil, or_false] at h
  rcases h with rfl | rfl
  · generalize b / 16 % 16 = i at h1
    interval_cases i <;> decide
  · generalize b % 16 = i at h2
    interval_cases i <;> decide

/-- The text of an address is its octets, each as two lower-case hex digits,
joined by `':'`. -/
theorem HardwareAddr.String_eq (m : HardwareAddr) :
    HardwareAddr.String m = String.mk (List.intercalate [':'] (m.map hexOctet)) := by
  cases m with
  | nil => rfl
  | cons b rest => simp [HardwareAddr.String, hwChars_eq]

/-! ## Facts about `setMac`, `Configure`, `Start` and `Stop` shared by the proofs below -/

/-- On a supported system `setMac` runs one command; when it succeeds the
interface has the new address, and nothing else changes. -/
theorem setMac_of_run_ok (env : Env) (run : Runner) (mac : HardwareAddr) (mc : MacChanger)
    (hos : supportedOS env.GOOS) (hrun : ∀ a, run "ifconfig" a = none) :
    (setMac env run mac mc).err = none ∧
    (setMac env run mac mc).mc = { mc with Interface := { mc.Interface with HW := mac } } := by
  unfold supportedOS at hos
  unfold setMac
  by_cases h1 : stringsContains env.GOOS "bsd" = true ∨ env.GOOS = "darwin"
  · simp [h1, hrun]
  · have h2 : env.GOOS = "linux" := by tauto
    simp only [if_neg h1, if_pos h2, hrun]
    simp

/-- On a supported system, when the command fails with `e`, `setMac` returns
`e` and leaves the module as it was. -/
theorem setMac_of_run_fail (env : Env) (run : Runner) (mac : HardwareAddr) (mc : MacChanger)
    (e : ExtError) (hos : supportedOS env.GOOS) (hrun : ∀ a, run "ifconfig" a = some e) :
    (setMac env run mac mc).err = some (.foreign e) ∧ (setMac env run mac mc).mc = mc := by
  unfold supportedOS at hos
  unfold setMac
  by_cases h1 : stringsContains env.GOOS "bsd" = true ∨ env.GOOS = "darwin"
  · simp [h1, hrun]
  · have h2 : env.GOOS = "linux" := by tauto
    simp only [if_neg h1, if_pos h2, hrun]
    simp

/-- When the parameter lookup answers `s` and `s` parses, `Configure` returns
`nil`, stores the parsed address and the interface's current address, and makes
the one lookup. -/
theorem Configure_of_parse_ok (env : Env) (s : String) (F : HardwareAddr) (mc : MacChanger)
    (hparse : env.ParseMAC (env.NormalizeMac s) = (F, none)) :
    Configure env (.ok s) mc =
      ⟨none, { mc with fakeMac := F, originalMac := mc.Interface.HW },
        [.StringParam "mac.changer.address"]⟩ := by
  simp [Configure, hparse]

/-- A `Start` of a stopped module whose address parses, on a supported system
with a command that succeeds. -/
theorem Start_of_run_ok (env : Env) (s : String) (F : HardwareAddr) (run : Runner)
    (mc : MacChanger) (hstopped : mc.Started = false)
    (hparse : env.ParseMAC (env.NormalizeMac s) = (F, none))
    (hos : supportedOS env.GOOS) (hrun : ∀ a, run "ifconfig" a = none) :
    (Start env (.ok s) run mc).err = none ∧
    (Start env (.ok s) run mc).mc =
      ⟨true, mc.Interface.HW, F, ⟨mc.Interface.name, F⟩⟩ := by
  obtain ⟨st, om, fm, ifc⟩ := mc
  simp only at hstopped
  subst hstopped
  have hc := Configure_of_parse_ok env s F ⟨false, om, fm, ifc⟩ hparse
  obtain ⟨h1, h2⟩ := setMac_of_run_ok env run F
    ⟨false, ifc.HW, F, ifc⟩ hos hrun
  simp only at hc h1 h2
  simp [Start, hc, h1, h2]

/-- A `Start` of a stopped module whose address parses, on a supported system
with a command that fails with `e`. -/
theorem Start_of_run_fail (env : Env) (s : String) (F : HardwareAddr) (run : Runner)
    (mc : MacChanger) (e : ExtError) (hstopped : mc.Started = false)
    (hparse : env.ParseMAC (env.NormalizeMac s) = (F, none))
    (hos : supportedOS env.GOOS) (hrun : ∀ a, run "ifconfig" a = some e) :
    (Start env (.ok s) run mc).err = some (.foreign e) ∧
    (Start env (.ok s) run mc).mc = { mc with fakeMac := F, originalMac := mc.Interface.HW } := by
  obtain ⟨st, om, fm, ifc⟩ := mc
  simp only at hstopped
  subst hstopped
  have hc := Configure_of_parse_ok env s F ⟨false, om, fm, ifc⟩ hparse
  obtain ⟨h1, h2⟩ := setMac_of_run_fail env run F
    ⟨false, ifc.HW, F, ifc⟩ e hos hrun
  simp only at hc h1 h2
  simp [Start, hc, h1, h2]

/-- A `Stop` of a running module on a supported system with a command that
succeeds. -/
theorem Stop_of_run_ok (env : Env) (run : Runner) (mc : MacChanger)
    (hrunning : mc.Started = true) (hos : supportedOS env.GOOS)
    (hrun : ∀ a, run "ifconfig" a = none) :
    (Stop env run mc).err = none ∧
    (Stop env run mc).mc =
      ⟨false, mc.originalMac, mc.fakeMac, ⟨mc.Interface.name, mc.originalMac⟩⟩ := by
  obtain ⟨h1, h2⟩ := setMac_of_run_ok env run mc.originalMac mc hos hrun
  simp [Stop, hrunning, h1, h2]

/-- The three ways a call of `setMac` can go. -/
theorem setMac_cases (env : Env) (run : Runner) (mac : HardwareAddr) (mc : MacChanger) :
    (∃ args, supportedOS env.GOOS ∧ run "ifconfig" args = none ∧
      setMac env run mac mc =
        ⟨none, { mc with Interface := { mc.Interface with HW := mac } },
          [.Exec "ifconfig" args]⟩) ∨
    (∃ args e, supportedOS env.GOOS ∧ run "ifconfig" args = some e ∧
      setMac env run mac mc = ⟨some (.foreign e), mc, [.Exec "ifconfig" args]⟩) ∨
    (¬ supportedOS env.GOOS ∧
      setMac env run mac mc = ⟨some (.unsupportedOS env.GOOS), mc, []⟩) := by
  unfold setMac supportedOS
  simp only []
  split_ifs with h1 h2
  · have hs : stringsContains env.GOOS "bsd" = true ∨ env.GOOS = "darwin" ∨ env.GOOS = "linux" := by
      tauto
    cases hr : run "ifconfig" [mc.Interface.name, "ether", HardwareAddr.String mac] with
    | none => exact Or.inl ⟨_, hs, hr, by simp [hr]⟩
    | some e => exact Or.inr (Or.inl ⟨_, e, hs, hr, by simp [hr]⟩)
  · have hs : stringsContains env.GOOS "bsd" = true ∨ env.GOOS = "darwin" ∨ env.GOOS = "linux" := by
      tauto
    cases hr : run "ifconfig" [mc.Interface.name, "hw", "ether", HardwareAddr.String mac] with
    | none => exact Or.inl ⟨_, hs, hr, by simp [hr]⟩
    | some e => exact Or.inr (Or.inl ⟨_, e, hs, hr, by simp [hr]⟩)
  · exact Or.inr (Or.inr ⟨by tauto, rfl⟩)

/-- The three ways a call of `Configure` can go. -/
theorem Configure_cases (env : Env) (param : Except ExtError String) (mc : MacChanger) :
    (∃ e, param = .error e ∧
      Configure env param mc =
        ⟨some (.foreign e), mc, [.StringParam "mac.changer.address"]⟩) ∨
    (∃ s e, param = .ok s ∧ (env.ParseMAC (env.NormalizeMac s)).2 = some e ∧
      Configure env param mc =
        ⟨some (.foreign e), { mc with fakeMac := (env.ParseMAC (env.NormalizeMac s)).1 },
          [.StringParam "mac.changer.address"]⟩) ∨
    (∃ s, param = .ok s ∧ (env.ParseMAC (env.NormalizeMac s)).2 = none ∧
      Configure env param mc =
        ⟨none,
          { mc with fakeMac := (env.ParseMAC (env.NormalizeMac s)).1,
                    originalMac := mc.Interface.HW },
          [.StringParam "mac.changer.address"]⟩) := by
  cases param with
  | error e => left; exact ⟨e, rfl, rfl⟩
  | ok s =>
    right
    cases hp : (env.ParseMAC (env.NormalizeMac s)).2 with
    | some e => left; exact ⟨s, e, rfl, hp, by simp [Configure, hp]⟩
    | none => right; exact ⟨s, rfl, hp, by simp [Configure, hp]⟩

/-- The six ways a call of `Start` can go. -/
theorem Start_cases (env : Env) (param : Except ExtError String) (run : Runner)
    (mc : MacChanger) :
    (mc.Started = true ∧ Start env param run mc = ⟨some .ErrAlreadyStarted, mc, []⟩) ∨
    (mc.Started = false ∧ ∃ e, param = .error e ∧
      Start env param run mc =
        ⟨some (.foreign e), mc, [.StringParam "mac.changer.address"]⟩) ∨
    (mc.Started = false ∧ ∃ s e, param = .ok s ∧
      (env.ParseMAC (env.NormalizeMac s)).2 = some e ∧
      Start env param run mc =
        ⟨some (.foreign e), { mc with fakeMac := (env.ParseMAC (env.NormalizeMac s)).1 },
          [.StringParam "mac.changer.address"]⟩) ∨
    (mc.Started = false ∧ ∃ s, param = .ok s ∧
      (env.ParseMAC (env.NormalizeMac s)).2 = none ∧ ¬ supportedOS env.GOOS ∧
      Start env param run mc =
        ⟨some (.unsupportedOS env.GOOS),
          { mc with fakeMac := (env.ParseMAC (env.NormalizeMac s)).1,
                    originalMac := mc.Interface.HW },
          [.StringParam "mac.changer.address"]⟩) ∨
    (mc.Started = false ∧ ∃ s args e, param = .ok s ∧
      (env.ParseMAC (env.NormalizeMac s)).2 = none ∧ supportedOS env.GOOS ∧
      run "ifconfig" args = some e ∧
      Start env param run mc =
        ⟨some (.foreign e),
          { mc with fakeMac := (env.ParseMAC (env.NormalizeMac s)).1,
                    originalMac := mc.Interface.HW },
          [.StringParam "mac.changer.address", .Exec "ifconfig" args]⟩) ∨
    (mc.Started = false ∧ ∃ s args, param = .ok s ∧
      (env.ParseMAC (env.NormalizeMac s)).2 = none ∧ supportedOS env.GOOS ∧
      run "ifconfig" args = none ∧
      Start env param run mc =
        ⟨none,
          ⟨true, mc.Interface.HW, (env.ParseMAC (env.NormalizeMac s)).1,
            ⟨mc.Interface.name, (env.ParseMAC (env.NormalizeMac s)).1⟩⟩,
          [.StringParam "mac.changer.address", .Exec "ifconfig" args]⟩) := by
  obtain ⟨st, om, fm, ifc⟩ := mc
  cases st with
  | true => left; simp [Start]
  | false =>
    right
    cases param with
    | error e => left; simp [Start, Configure]
    | ok s =>
      right
      cases hp : (env.ParseMAC (env.NormalizeMac s)).2 with
      | some e => left; simp [Start, Configure, hp]
      | none =>
        right
        rcases setMac_cases env run (env.ParseMAC (env.NormalizeMac s)).1
            ⟨false, ifc.HW, (env.ParseMAC (env.NormalizeMac s)).1, ifc⟩ with
          ⟨a, hs, ha, h⟩ | ⟨a, e1, hs, ha, h⟩ | ⟨hn, h⟩
        · right; right
          exact ⟨rfl, s, a, rfl, hp, hs, ha, by simp [Start, Configure, hp, h]⟩
        · right; left
          exact ⟨rfl, s, a, e1, rfl, hp, hs, ha, by simp [Start, Configure, hp, h]⟩
        · left
          exact ⟨rfl, s, rfl, hp, hn, by simp [Start, Configure, hp, h]⟩

/-- The four ways a call of `Stop` can go. -/
theorem Stop_cases (env : Env) (run : Runner) (mc : MacChanger) :
    (mc.Started = false ∧ Stop env run mc = ⟨some .ErrAlreadyStopped, mc, []⟩) ∨
    (mc.Started = true ∧ ¬ supportedOS env.GOOS ∧
      Stop env run mc = ⟨some (.unsupportedOS env.GOOS), mc, []⟩) ∨
    (mc.Started = true ∧ ∃ args e, supportedOS env.GOOS ∧ run "ifconfig" args = some e ∧
      Stop env run mc = ⟨some (.foreign e), mc, [.Exec "ifconfig" args]⟩) ∨
    (mc.Started = true ∧ ∃ args, supportedOS env.GOOS ∧ run "ifconfig" args = none ∧
      Stop env run mc =
        ⟨none, ⟨false, mc.originalMac, mc.fakeMac, ⟨mc.Interface.name, mc.originalMac⟩⟩,
          [.Exec "ifconfig" args]⟩) := by
  obtain ⟨st, om, fm, ifc⟩ := mc
  cases st with
  | false => left; simp [Stop]
  | true =>
    right
    rcases setMac_cases env run om ⟨true, om, fm, ifc⟩ with
      ⟨a, hs, ha, h⟩ | ⟨a, e1, hs, ha, h⟩ | ⟨hn, h⟩
    · right; right
      exact ⟨rfl, a, hs, ha, by simp [Stop, h]⟩
    · right; left
      exact ⟨rfl, a, e1, hs, ha, by simp [Stop, h]⟩
    · left
      exact ⟨rfl, hn, by simp [Stop, h]⟩

/-- One guarded call keeps the fact that a running module's `originalMac` is
the interface address from before the `Start` that made it run. -/
theorem stepTracked_preStart (env : Env) (t : Tracked) (c : Call)
    (hinv : t.mc.Started = true → t.mc.originalMac = t.preStart)
    (hguard : ∀ param, c = .Configure param →
      ¬ (t.mc.Started = true ∧ (Configure env param t.mc).err = none)) :
    (stepTracked env t c).mc.Started = true →
      (stepTracked env t c).mc.originalMac = (stepTracked env t c).preStart := by
  obtain ⟨mc, g⟩ := t
  cases c with
  | Configure param =>
    have hg := hguard param rfl
    simp only [stepTracked, step]
    rcases Configure_cases env param mc with ⟨e1, _, h⟩ | ⟨s, e1, _, _, h⟩ | ⟨s, _, _, h⟩
    · rw [h]; exact hinv
    · rw [h]; exact hinv
    · rw [h] at hg ⊢
      intro hst
      exact absurd ⟨hst, rfl⟩ hg
  | Start param run =>
    rcases Start_cases env param run mc with
      ⟨hst, h⟩ | ⟨hst, e, _, h⟩ | ⟨hst, s, e, _, _, h⟩ | ⟨hst, s, _, _, _, h⟩ |
      ⟨hst, s, a, e, _, _, _, _, h⟩ | ⟨hst, s, a, _, _, _, _, h⟩
    · simp only [stepTracked, step, h]; exact hinv
    all_goals simp [stepTracked, step, h, hst]
  | Stop run =>
    rcases Stop_cases env run mc with
      ⟨hst, h⟩ | ⟨hst, _, h⟩ | ⟨hst, a, e, _, _, h⟩ | ⟨hst, a, _, _, h⟩
    · simp only [stepTracked, step, h]; exact hinv
    · simp only [stepTracked, step, h]; exact hinv
    · simp only [stepTracked, step, h]; exact hinv
    · simp [stepTracked, step, h]

/-- A guarded sequence of calls keeps the same fact. -/
theorem runTracked_preStart (env : Env) (cs : List Call) (t : Tracked)
    (hinv : t.mc.Started = true → t.mc.originalMac = t.preStart)
    (hguard : configureGuarded env t.mc cs = true) :
    (runTracked env t cs).mc.Started = true →
      (runTracked env t cs).mc.originalMac = (runTracked env t cs).preStart := by
  induction cs generalizing t with
  | nil => exact hinv
  | cons c cs ih =>
    simp only [configureGuarded, Bool.and_eq_true] at hguard
    obtain ⟨hc, hrest⟩ := hguard
    have hstep := stepTracked_preStart env t c hinv (by
      intro param hp
      subst hp
      rintro ⟨h1, h2⟩
      simp [h1, h2] at hc)
    have hmc : (stepTracked env t c).mc = (step env t.mc c).mc := by
      simp only [stepTracked]
      split <;> rfl
    simp only [runTracked, List.foldl_cons]
    exact ih (stepTracked env t c) hstep (by rw [hmc]; exact hrest)

/-- The three ways a call of `setMac` can go, with the command it runs. -/
theorem setMac_cases_args (env : Env) (run : Runner) (mac : HardwareAddr) (mc : MacChanger) :
    (∃ args, ifconfigArgs env.GOOS mc.Interface.name mac = some args ∧
      run "ifconfig" args = none ∧
      setMac env run mac mc =
        ⟨none, { mc with Interface := { mc.Interface with HW := mac } },
          [.Exec "ifconfig" args]⟩) ∨
    (∃ args e, ifconfigArgs env.GOOS mc.Interface.name mac = some args ∧
      run "ifconfig" args = some e ∧
      setMac env run mac mc = ⟨some (.foreign e), mc, [.Exec "ifconfig" args]⟩) ∨
    (ifconfigArgs env.GOOS mc.Interface.name mac = none ∧ ¬ supportedOS env.GOOS ∧
      setMac env run mac mc = ⟨some (.unsupportedOS env.GOOS), mc, []⟩) := by
  unfold setMac supportedOS ifconfigArgs
  simp only []
  split_ifs with h1 h2
  · cases hr : run "ifconfig" [mc.Interface.name, "ether", HardwareAddr.String mac] with
    | none => exact Or.inl ⟨_, rfl, hr, by simp [hr]⟩
    | some e => exact Or.inr (Or.inl ⟨_, e, rfl, hr, by simp [hr]⟩)
  · cases hr : run "ifconfig" [mc.Interface.name, "hw", "ether", HardwareAddr.String mac] with
    | none => exact Or.inl ⟨_, rfl, hr, by simp [hr]⟩
    | some e => exact Or.inr (Or.inl ⟨_, e, rfl, hr, by simp [hr]⟩)
  · exact Or.inr (Or.inr ⟨rfl, by tauto, rfl⟩)

/-- A `Stop` whose command cannot succeed leaves the module as it was. -/
theorem Stop_of_no_success (env : Env) (run : Runner) (mc : MacChanger)
    (hrun : ∀ a, run "ifconfig" a ≠ none) : (Stop env run mc).mc = mc := by
  rcases Stop_cases env run mc with
    ⟨_, h⟩ | ⟨_, _, h⟩ | ⟨_, a, e, _, _, h⟩ | ⟨_, a, _, ha, h⟩
  · rw [h]
  · rw [h]
  · rw [h]
  · exact absurd ha (hrun a)

/-- Any number of `Stop` calls whose command cannot succeed leave the module as
it was. -/
theorem stopAll_of_no_success (env : Env) (runs : List Runner) (mc : MacChanger)
    (hruns : ∀ run ∈ runs, ∀ a, run "ifconfig" a ≠ none) : stopAll env mc runs = mc := by
  induction runs generalizing mc with
  | nil => rfl
  | cons r rs ih =>
    simp only [stopAll, List.foldl_cons]
    rw [Stop_of_no_success env r mc (hruns r (List.mem_cons_self r rs))]
    exact ih mc (fun run hmem => hruns run (List.mem_cons_of_mem r hmem))

/-- One call of `Start` or `Stop` keeps the two facts: a running module's
interface has `fakeMac`, and a module stopped after a `Start` that succeeded has
an interface with `originalMac`. -/
theorem stepHistory_address (env : Env) (h : History) (c : Call)
    (hc : ∀ param, c ≠ .Configure param)
    (hrun : h.mc.Started = true → h.mc.Interface.HW = h.mc.fakeMac)
    (hstop : h.mc.Started = false → h.started = true →
      h.mc.Interface.HW = h.mc.originalMac) :
    ((stepHistory env h c).mc.Started = true →
      (stepHistory env h c).mc.Interface.HW = (stepHistory env h c).mc.fakeMac) ∧
    ((stepHistory env h c).mc.Started = false → (stepHistory env h c).started = true →
      (stepHistory env h c).mc.Interface.HW = (stepHistory env h c).mc.originalMac) := by
  obtain ⟨mc, ever⟩ := h
  cases c with
  | Configure param => exact absurd rfl (hc param)
  | Start param run =>
    rcases Start_cases env param run mc with
      ⟨hst, h⟩ | ⟨hst, e, _, h⟩ | ⟨hst, s, e, _, _, h⟩ | ⟨hst, s, _, _, _, h⟩ |
      ⟨hst, s, a, e, _, _, _, _, h⟩ | ⟨hst, s, a, _, _, _, _, h⟩
    · simp only [stepHistory, step, h]; exact ⟨hrun, hstop⟩
    · simp only [stepHistory, step, h]; exact ⟨hrun, hstop⟩
    · simp only [stepHistory, step, h]
      exact ⟨fun h1 => by simp [hst] at h1, hstop⟩
    · simp [stepHistory, step, h, hst]
    · simp [stepHistory, step, h, hst]
    · simp [stepHistory, step, h]
  | Stop run =>
    rcases Stop_cases env run mc with
      ⟨hst, h⟩ | ⟨hst, _, h⟩ | ⟨hst, a, e, _, _, h⟩ | ⟨hst, a, _, _, h⟩
    · simp only [stepHistory, step, h]; exact ⟨hrun, hstop⟩
    · simp only [stepHistory, step, h]; exact ⟨hrun, hstop⟩
    · simp only [stepHistory, step, h]; exact ⟨hrun, hstop⟩
    · simp [stepHistory, step, h]

/-- A sequence of `Start` and `Stop` calls keeps the same two facts. -/
theorem runHistory_address (env : Env) (cs : List Call) (h : History)
    (honly : startStopOnly cs = true)
    (hrun : h.mc.Started = true → h.mc.Interface.HW = h.mc.fakeMac)
    (hstop : h.mc.Started = false → h.started = true →
      h.mc.Interface.HW = h.mc.originalMac) :
    ((runHistory env h cs).mc.Started = true →
      (runHistory env h cs).mc.Interface.HW = (runHistory env h cs).mc.fakeMac) ∧
    ((runHistory env h cs).mc.Started = false → (runHistory env h cs).started = true →
      (runHistory env h cs).mc.Interface.HW = (runHistory env h cs).mc.originalMac) := by
  induction cs generalizing h with
  | nil => exact ⟨hrun, hstop⟩
  | cons c cs ih =>
    simp only [startStopOnly, List.all_cons, Bool.and_eq_true] at honly
    obtain ⟨hc, hrest⟩ := honly
    have hstep := stepHistory_address env h c
      (by intro param hp; subst hp; simp at hc) hrun hstop
    simp only [runHistory, List.foldl_cons]
    exact ih (stepHistory env h c) hrest hstep.1 hstep.2

/-- What the proofs below use of a character of the class `[a-fA-F0-9]`: it is
no separator, its lower-case form is one byte and a hex digit of the same value,
and that value names it in `hexDigit`. -/
theorem isHexRune_facts (c : Char) (h : isHexRune c = true) :
    (c != ':' && c != '-') = true ∧
    (String.utf8EncodeChar c.toLower).map UInt8.toNat = [c.toLower.toNat] ∧
    hexValue c.toLower.toNat = some (digitValue c) ∧
    digitValue c < 16 ∧
    hexDigit.getD (digitValue c) '0' = c.toLower := by
  have hc : c = Char.ofNat c.toNat := by simp
  simp only [isHexRune, Bool.or_eq_true, Bool.and_eq_true, decide_eq_true_eq] at h
  have h1 : 'a'.toNat = 97 := rfl
  have h2 : 'f'.toNat = 102 := rfl
  have h3 : 'A'.toNat = 65 := rfl
  have h4 : 'F'.toNat = 70 := rfl
  have h5 : '0'.toNat = 48 := rfl
  have h6 : '9'.toNat = 57 := rfl
  rw [h1, h2, h3, h4, h5, h6] at h
  generalize c.toNat = n at h hc
  subst hc
  have hn : 48 ≤ n ∧ n ≤ 102 := by omega
  obtain ⟨hl, hu⟩ := hn
  interval_cases n <;> first | decide | (exfalso; omega)

/-- Two hex digits, at the end of the text or followed by the separator, make
one octet. -/
theorem xtoi2_pair (a b x y e : Nat) (rest : List Nat)
    (ha : hexValue a = some x) (hx : x < 16) (hb : hexValue b = some y) (hy : y < 16)
    (hrest : rest = [] ∨ ∃ r, rest = e :: r) :
    xtoi2 (a :: b :: rest) e = (x * 16 + y, true) := by
  have hbig1 : ¬ (0 * 16 + x ≥ big) := by simp only [big]; omega
  have hbig2 : ¬ ((0 * 16 + x) * 16 + y ≥ big) := by simp only [big]; omega
  have hx2 : xtoi (List.take 2 (a :: b :: rest)) = ((0 * 16 + x) * 16 + y, 2, true) := by
    simp only [xtoi, List.take_succ_cons, List.take_zero, xtoiLoop, ha, hb, if_neg hbig1,
      if_neg hbig2]
    simp
  have hcond : ¬ ((a :: b :: rest).length > 2 ∧ (a :: b :: rest).getD 2 0 ≠ e) := by
    rcases hrest with rfl | ⟨r, rfl⟩ <;> simp
  simp only [xtoi2, if_neg hcond, hx2]
  have hmod : ((0 * 16 + x) * 16 + y) % 256 = x * 16 + y := by omega
  rw [hmod]
  rfl

/-- The text of an octet made of two hex digits is the two digits. -/
theorem hexOctet_pair (x y : Nat) (hx : x < 16) (hy : y < 16) :
    hexOctet (x * 16 + y) = [hexDigit.getD x '0', hexDigit.getD y '0'] := by
  have h1 : (x * 16 + y) / 16 % 16 = x := by omega
  have h2 : (x * 16 + y) % 16 = y := by omega
  simp only [hexOctet, h1, h2]

/-- Resolving the colon-separated spelling of six pairs of hex digits: the
normalised text is the spelling in lower case, `ParseMAC` returns the six octets
the digits denote, and the text of these octets is the lower-case spelling. -/
theorem resolve_colon_spelling (ds : List Char) (hlen : ds.length = 12)
    (hhex : ∀ c ∈ ds, isHexRune c = true) :
    NormalizeMac (spell [':'] ds) = spell [':'] (ds.map Char.toLower) ∧
    ParseMAC (spell [':'] (ds.map Char.toLower)) = (octetsOf ds, none) ∧
    HardwareAddr.String (octetsOf ds) = spell [':'] (ds.map Char.toLower) := by
  rcases ds with _ | ⟨c0, _ | ⟨c1, _ | ⟨c2, _ | ⟨c3, _ | ⟨c4, _ | ⟨c5, _ | ⟨c6, _ | ⟨c7,
    _ | ⟨c8, _ | ⟨c9, _ | ⟨c10, _ | ⟨c11, _ | ⟨c12, ds⟩⟩⟩⟩⟩⟩⟩⟩⟩⟩⟩⟩⟩ <;>
    simp at hlen
  simp only [List.mem_cons, List.mem_singleton, List.not_mem_nil, or_false, forall_eq_or_imp,
    forall_eq] at hhex
  obtain ⟨h0, h1, h2, h3, h4, h5, h6, h7, h8, h9, h10, h11⟩ := hhex
  obtain ⟨s0, u0, v0, b0, g0⟩ := isHexRune_facts c0 h0
  obtain ⟨s1, u1, v1, b1, g1⟩ := isHexRune_facts c1 h1
  obtain ⟨s2, u2, v2, b2, g2⟩ := isHexRune_facts c2 h2
  obtain ⟨s3, u3, v3, b3, g3⟩ := isHexRune_facts c3 h3
  obtain ⟨s4, u4, v4, b4, g4⟩ := isHexRune_facts c4 h4
  obtain ⟨s5, u5, v5, b5, g5⟩ := isHexRune_facts c5 h5
  obtain ⟨s6, u6, v6, b6, g6⟩ := isHexRune_facts c6 h6
  obtain ⟨s7, u7, v7, b7, g7⟩ := isHexRune_facts c7 h7
  obtain ⟨s8, u8, v8, b8, g8⟩ := isHexRune_facts c8 h8
  obtain ⟨s9, u9, v9, b9, g9⟩ := isHexRune_facts c9 h9
  obtain ⟨s10, u10, v10, b10, g10⟩ := isHexRune_facts c10 h10
  obtain ⟨s11, u11, v11, b11, g11⟩ := isHexRune_facts c11 h11
  refine ⟨?_, ?_, ?_⟩
  · simp [NormalizeMac, spell, pairUp, List.intercalate, List.intersperse, List.filter,
      s0, s1, s2, s3, s4, s5, s6, s7, s8, s9, s10, s11]
  · have hsep : (String.utf8EncodeChar ':').map UInt8.toNat = [58] := by decide
    have hbytes : goBytes (spell [':'] (List.map Char.toLower
        [c0, c1, c2, c3, c4, c5, c6, c7, c8, c9, c10, c11])) =
        [c0.toLower.toNat, c1.toLower.toNat, 58, c2.toLower.toNat, c3.toLower.toNat, 58,
         c4.toLower.toNat, c5.toLower.toNat, 58, c6.toLower.toNat, c7.toLower.toNat, 58,
         c8.toLower.toNat, c9.toLower.toNat, 58, c10.toLower.toNat, c11.toLower.toNat] := by
      simp [goBytes, spell, pairUp, List.intercalate, List.intersperse, List.flatMap,
        u0, u1, u2, u3, u4, u5, u6, u7, u8, u9, u10, u11, hsep]
    have x0 := fun rest => xtoi2_pair _ _ _ _ 58 (58 :: rest) v0 b0 v1 b1 (Or.inr ⟨rest, rfl⟩)
    have x1 := fun rest => xtoi2_pair _ _ _ _ 58 (58 :: rest) v2 b2 v3 b3 (Or.inr ⟨rest, rfl⟩)
    have x2 := fun rest => xtoi2_pair _ _ _ _ 58 (58 :: rest) v4 b4 v5 b5 (Or.inr ⟨rest, rfl⟩)
    have x3 := fun rest => xtoi2_pair _ _ _ _ 58 (58 :: rest) v6 b6 v7 b7 (Or.inr ⟨rest, rfl⟩)
    have x4 := fun rest => xtoi2_pair _ _ _ _ 58 (58 :: rest) v8 b8 v9 b9 (Or.inr ⟨rest, rfl⟩)
    have x5 := xtoi2_pair _ _ _ _ 58 [] v10 b10 v11 b11 (Or.inl rfl)
    have hcolon : ':'.toNat = 58 := rfl
    simp only [ParseMAC, hbytes, ParseMACBytes, List.length_cons, List.length_nil, hcolon,
      List.getD_cons_succ, List.getD_cons_zero]
    simp only [Nat.reduceAdd, Nat.reduceLT, Nat.reduceMod, Nat.reduceDiv, if_false, if_true,
      true_or, ne_eq, not_true_eq_false, false_and, and_false, not_false_eq_true,
      Nat.reduceEqDiff, parseColonLoop, x0, x1, x2, x3, x4, x5,
      List.drop_succ_cons, List.drop_zero, Option.map_some', octetsOf]
  · have o0 := hexOctet_pair _ _ b0 b1
    have o1 := hexOctet_pair _ _ b2 b3
    have o2 := hexOctet_pair _ _ b4 b5
    have o3 := hexOctet_pair _ _ b6 b7
    have o4 := hexOctet_pair _ _ b8 b9
    have o5 := hexOctet_pair _ _ b10 b11
    simp only [octetsOf, HardwareAddr.String, hwChars, o0, o1, o2, o3, o4, o5, g0, g1, g2, g3,
      g4, g5, g6, g7, g8, g9, g10, g11]
    simp [spell, pairUp, List.intercalate, List.intersperse]

/-- The loop for the colon and hyphen forms returns as many octets as it was
asked for. -/
theorem parseColonLoop_length (e n : Nat) (s hw : List Nat)
    (h : parseColonLoop e n s = some hw) : hw.length = n := by
  induction n generalizing s hw with
  | zero =>
    simp only [parseColonLoop, Option.some.injEq] at h
    rw [← h]; rfl
  | succ n ih =>
    simp only [parseColonLoop] at h
    split at h
    · cases hr : parseColonLoop e n (s.drop 3) with
      | none => rw [hr] at h; simp at h
      | some tl =>
        rw [hr] at h
        simp only [Option.map_some', Option.some.injEq] at h
        rw [← h, List.length_cons, ih _ _ hr]
    · simp at h

/-- The loop for the dotted form returns two octets for each group. -/
theorem parseDotLoop_length (e k : Nat) (s hw : List Nat)
    (h : parseDotLoop e k s = some hw) : hw.length = 2 * k := by
  induction k generalizing s hw with
  | zero =>
    simp only [parseDotLoop, Option.some.injEq] at h
    rw [← h]; rfl
  | succ k ih =>
    simp only [parseDotLoop] at h
    split at h
    · simp at h
    · split at h
      · simp at h
      · cases hr : parseDotLoop e k (s.drop 5) with
        | none => rw [hr] at h; simp at h
        | some tl =>
          rw [hr] at h
          simp only [Option.map_some', Option.some.injEq] at h
          rw [← h, List.length_cons, List.length_cons, ih _ _ hr]
          omega

/-- An address `ParseMAC` returns without an error has 6, 8 or 20 octets; with an
error it returns the nil address. -/
theorem ParseMAC_length (s : String) :
    ((ParseMAC s).2 = none →
      (ParseMAC s).1.length = 6 ∨ (ParseMAC s).1.length = 8 ∨ (ParseMAC s).1.length = 20) ∧
    ((ParseMAC s).2 ≠ none → (ParseMAC s).1 = []) := by
  unfold ParseMAC
  cases hb : ParseMACBytes (goBytes s) with
  | none => simp
  | some hw =>
    simp only [ne_eq, not_true_eq_false, false_implies, and_true, true_implies]
    unfold ParseMACBytes at hb
    split_ifs at hb with h1 h2 h3 h4 h5 h6 h7
    · have := parseColonLoop_length _ _ _ _ hb
      omega
    · have := parseDotLoop_length _ _ _ _ hb
      omega

/-- What the proofs below use of the `i`-th character of `hexDigit`: it is of
the class `[a-fA-F0-9]`, it is in lower case and its value is `i`. -/
theorem hexDigit_facts (i : Nat) (hi : i < 16) :
    isHexRune (hexDigit.getD i '0') = true ∧
    (hexDigit.getD i '0').toLower = hexDigit.getD i '0' ∧
    digitValue (hexDigit.getD i '0') = i := by
  interval_cases i <;> decide

/-- The text of six octets is the colon-separated spelling of their twelve hex
digits, and these digits denote the octets. -/
theorem String_six_octets (m0 m1 m2 m3 m4 m5 : Nat)
    (h0 : m0 < 256) (h1 : m1 < 256) (h2 : m2 < 256) (h3 : m3 < 256) (h4 : m4 < 256)
    (h5 : m5 < 256) :
    ∃ ds : List Char, ds.length = 12 ∧ (∀ c ∈ ds, isHexRune c = true) ∧
      ds.map Char.toLower = ds ∧ octetsOf ds = [m0, m1, m2, m3, m4, m5] ∧
      HardwareAddr.String [m0, m1, m2, m3, m4, m5] = spell [':'] ds := by
  have key : ∀ m, m < 256 →
      isHexRune (hexDigit.getD (m / 16 % 16) '0') = true ∧
      isHexRune (hexDigit.getD (m % 16) '0') = true ∧
      (hexDigit.getD (m / 16 % 16) '0').toLower = hexDigit.getD (m / 16 % 16) '0' ∧
      (hexDigit.getD (m % 16) '0').toLower = hexDigit.getD (m % 16) '0' ∧
      digitValue (hexDigit.getD (m / 16 % 16) '0') * 16 + digitValue (hexDigit.getD (m % 16) '0')
        = m := by
    intro m hm
    obtain ⟨a1, a2, a3⟩ := hexDigit_facts (m / 16 % 16) (Nat.mod_lt _ (by norm_num))
    obtain ⟨b1, b2, b3⟩ := hexDigit_facts (m % 16) (Nat.mod_lt _ (by norm_num))
    refine ⟨a1, b1, a2, b2, ?_⟩
    rw [a3, b3]
    omega
  obtain ⟨p0, q0, r0, t0, v0⟩ := key m0 h0
  obtain ⟨p1, q1, r1, t1, v1⟩ := key m1 h1
  obtain ⟨p2, q2, r2, t2, v2⟩ := key m2 h2
  obtain ⟨p3, q3, r3, t3, v3⟩ := key m3 h3
  obtain ⟨p4, q4, r4, t4, v4⟩ := key m4 h4
  obtain ⟨p5, q5, r5, t5, v5⟩ := key m5 h5
  refine ⟨hexOctet m0 ++ hexOctet m1 ++ hexOctet m2 ++ hexOctet m3 ++ hexOctet m4 ++ hexOctet m5,
    by simp [hexOctet], ?_, ?_, ?_, ?_⟩
  · simp only [hexOctet, List.cons_append, List.nil_append, List.mem_cons, List.mem_singleton,
      List.not_mem_nil, or_false, forall_eq_or_imp, forall_eq]
    exact ⟨p0, q0, p1, q1, p2, q2, p3, q3, p4, q4, p5, q5⟩
  · simp only [hexOctet, List.cons_append, List.nil_append, List.map_cons, List.map_nil,
      r0, t0, r1, t1, r2, t2, r3, t3, r4, t4, r5, t5]
  · simp only [hexOctet, List.cons_append, List.nil_append, octetsOf, v0, v1, v2, v3, v4, v5]
  · simp only [HardwareAddr.String, hwChars, hexOctet]
    simp [spell, pairUp, List.intercalate, List.intersperse]

/-- On the default value of `mac.changer.address`, the sentinel, `Configure`
returns `nil` and `fakeMac` is the address generated at random: six octets, the
first with the multicast bit clear and the locally-administered bit set. -/
theorem Configure_random_sentinel (os : String) (random : Nat → Nat) (mc : MacChanger) :
    (Configure (goEnv os) (StringParam random ParamRandomMAC) mc).err = none ∧
    (Configure (goEnv os) (StringParam random ParamRandomMAC) mc).mc.fakeMac
      = randomMAC random ∧
    (randomMAC random).length = 6 ∧
    (randomMAC random).headD 0 % 2 = 0 ∧ (randomMAC random).headD 0 / 2 % 2 = 1 := by
  obtain ⟨ds, hlen, hhex, hlow, hoct, htext⟩ := String_six_octets
    (random 0 % 256 / 4 * 4 + 2) (random 1 % 256) (random 2 % 256) (random 3 % 256)
    (random 4 % 256) (random 5 % 256) (by omega) (Nat.mod_lt _ (by norm_num))
    (Nat.mod_lt _ (by norm_num)) (Nat.mod_lt _ (by norm_num)) (Nat.mod_lt _ (by norm_num))
    (Nat.mod_lt _ (by norm_num))
  obtain ⟨hn, hp, _⟩ := resolve_colon_spelling ds hlen hhex
  rw [hlow] at hn hp
  have hsp : StringParam random ParamRandomMAC = .ok (spell [':'] ds) := by
    simp only [StringParam, if_true, randomMAC, htext]
  have hcfg := Configure_of_parse_ok (goEnv os) (spell [':'] ds) (octetsOf ds) mc
    (by simp only [goEnv]; rw [hn, hp])
  rw [hsp, hcfg, hoct]
  refine ⟨rfl, rfl, rfl, ?_, ?_⟩
  · simp only [randomMAC, List.headD_cons]; omega
  · simp only [randomMAC, List.headD_cons]; omega

/-! ## The claims -/

/-- C1: from a stopped module whose interface has address `A`, with a configured
string that resolves to `F`, on a supported system and with a command runner that
always succeeds, `Start` returns no error, the interface's hardware address
becomes `F` and the module is running; a `Stop` that follows returns no error,
the interface's hardware address is `A` again and the module is stopped. -/
theorem C1_start_then_stop_restores (env : Env) (s : String) (F A : HardwareAddr)
    (run : Runner) (mc : MacChanger)
    (hstopped : mc.Started = false) (hA : mc.Interface.HW = A)
    (hparse : env.ParseMAC (env.NormalizeMac s) = (F, none))
    (hos : supportedOS env.GOOS) (hrun : ∀ c a, run c a = none) :
    (Start env (.ok s) run mc).err = none ∧
    (Start env (.ok s) run mc).mc.Interface.HW = F ∧
    (Start env (.ok s) run mc).mc.Started = true ∧
    (Stop env run (Start env (.ok s) run mc).mc).err = none ∧
    (Stop env run (Start env (.ok s) run mc).mc).mc.Interface.HW = A ∧
    (Stop env run (Start env (.ok s) run mc).mc).mc.Started = false := by
  obtain ⟨h1, h2⟩ := Start_of_run_ok env s F run mc hstopped hparse hos (hrun "ifconfig")
  obtain ⟨h3, h4⟩ := Stop_of_run_ok env run (Start env (.ok s) run mc).mc
    (by rw [h2]) hos (hrun "ifconfig")
  refine ⟨h1, by rw [h2], by rw [h2], h3, ?_, by rw [h4]⟩
  rw [h4, h2]
  exact hA

/-- C1 at the scenario of the specification: configured address
`11:22:33:44:55:66`, interface `eth0` at `00:01:02:03:04:05`, on linux. -/
theorem C1_start_then_stop_restores_witness :
    (Start (stubEnv "linux") (.ok "11:22:33:44:55:66") runOk (NewMacChanger eth0)).err = none ∧
    (Start (stubEnv "linux") (.ok "11:22:33:44:55:66") runOk
      (NewMacChanger eth0)).mc.Interface.HW = [0x11, 0x22, 0x33, 0x44, 0x55, 0x66] ∧
    (Start (stubEnv "linux") (.ok "11:22:33:44:55:66") runOk
      (NewMacChanger eth0)).mc.Started = true ∧
    (Stop (stubEnv "linux") runOk (Start (stubEnv "linux") (.ok "11:22:33:44:55:66") runOk
      (NewMacChanger eth0)).mc).err = none ∧
    (Stop (stubEnv "linux") runOk (Start (stubEnv "linux") (.ok "11:22:33:44:55:66") runOk
      (NewMacChanger eth0)).mc).mc.Interface.HW = [0, 1, 2, 3, 4, 5] ∧
    (Stop (stubEnv "linux") runOk (Start (stubEnv "linux") (.ok "11:22:33:44:55:66") runOk
      (NewMacChanger eth0)).mc).mc.Started = false :=
  C1_start_then_stop_restores (stubEnv "linux") "11:22:33:44:55:66"
    [0x11, 0x22, 0x33, 0x44, 0x55, 0x66] [0, 1, 2, 3, 4, 5] runOk (NewMacChanger eth0)
    (by decide) (by decide) (by decide) (by decide) (fun _ _ => rfl)

/-- C2: from a stopped module with a configured string that resolves, on a
supported system, when the command runner fails with `e`, `Start` returns
exactly `e`, the module is still stopped and the interface's hardware address is
what it was before the call. -/
theorem C2_start_command_failure (env : Env) (s : String) (F : HardwareAddr) (e : ExtError)
    (run : Runner) (mc : MacChanger)
    (hstopped : mc.Started = false)
    (hparse : env.ParseMAC (env.NormalizeMac s) = (F, none))
    (hos : supportedOS env.GOOS) (hrun : ∀ c a, run c a = some e) :
    (Start env (.ok s) run mc).err = some (.foreign e) ∧
    (Start env (.ok s) run mc).mc.Started = false ∧
    (Start env (.ok s) run mc).mc.Interface.HW = mc.Interface.HW := by
  obtain ⟨h1, h2⟩ := Start_of_run_fail env s F run mc e hstopped hparse hos (hrun "ifconfig")
  refine ⟨h1, ?_, ?_⟩ <;> rw [h2]
  exact hstopped

/-- C2 at a concrete input: the command fails with `permission denied` on
linux. -/
theorem C2_start_command_failure_witness :
    (Start (stubEnv "linux") (.ok "11:22:33:44:55:66") (runFail ⟨"permission denied"⟩)
      (NewMacChanger eth0)).err = some (.foreign ⟨"permission denied"⟩) ∧
    (Start (stubEnv "linux") (.ok "11:22:33:44:55:66") (runFail ⟨"permission denied"⟩)
      (NewMacChanger eth0)).mc.Started = false ∧
    (Start (stubEnv "linux") (.ok "11:22:33:44:55:66") (runFail ⟨"permission denied"⟩)
      (NewMacChanger eth0)).mc.Interface.HW = (NewMacChanger eth0).Interface.HW :=
  C2_start_command_failure (stubEnv "linux") "11:22:33:44:55:66"
    [0x11, 0x22, 0x33, 0x44, 0x55, 0x66] ⟨"permission denied"⟩ (runFail ⟨"permission denied"⟩)
    (NewMacChanger eth0) (by decide) (by decide) (by decide) (fun _ _ => rfl)

/-- C3: on a running module `Start` returns `ErrAlreadyStarted`, makes no call
to the parameter lookup nor to the command runner, and leaves the module (the
running flag, `fakeMac`, `originalMac` and the interface's hardware address) as
it was. -/
theorem C3_start_when_running (env : Env) (param : Except ExtError String) (run : Runner)
    (mc : MacChanger) (hrunning : mc.Started = true) :
    (Start env param run mc).err = some .ErrAlreadyStarted ∧
    (Start env param run mc).calls = [] ∧
    (Start env param run mc).mc.Started = mc.Started ∧
    (Start env param run mc).mc.fakeMac = mc.fakeMac ∧
    (Start env param run mc).mc.originalMac = mc.originalMac ∧
    (Start env param run mc).mc.Interface.HW = mc.Interface.HW := by
  simp [Start, hrunning]

/-- C3 at a concrete input: a second `Start` right after a first one that
succeeded. -/
theorem C3_start_when_running_witness :
    (Start (stubEnv "linux") (.ok "11:22:33:44:55:66") runOk
      ⟨true, [0, 1, 2, 3, 4, 5], [1, 1, 1, 1, 1, 1], ⟨"eth0", [1, 1, 1, 1, 1, 1]⟩⟩).err
        = some .ErrAlreadyStarted ∧
    (Start (stubEnv "linux") (.ok "11:22:33:44:55:66") runOk
      ⟨true, [0, 1, 2, 3, 4, 5], [1, 1, 1, 1, 1, 1], ⟨"eth0", [1, 1, 1, 1, 1, 1]⟩⟩).mc.Interface.HW
        = [1, 1, 1, 1, 1, 1] :=
  have h := C3_start_when_running (stubEnv "linux") (.ok "11:22:33:44:55:66") runOk
    ⟨true, [0, 1, 2, 3, 4, 5], [1, 1, 1, 1, 1, 1], ⟨"eth0", [1, 1, 1, 1, 1, 1]⟩⟩ rfl
  ⟨h.1, h.2.2.2.2.2⟩

/-- C4: on a stopped module `Stop` returns `ErrAlreadyStopped`, makes no call to
the command runner, and leaves the running flag, `fakeMac`, `originalMac` and the
interface's hardware address as they were. -/
theorem C4_stop_when_stopped (env : Env) (run : Runner) (mc : MacChanger)
    (hstopped : mc.Started = false) :
    (Stop env run mc).err = some .ErrAlreadyStopped ∧
    (Stop env run mc).calls = [] ∧
    (Stop env run mc).mc.Started = mc.Started ∧
    (Stop env run mc).mc.fakeMac = mc.fakeMac ∧
    (Stop env run mc).mc.originalMac = mc.originalMac ∧
    (Stop env run mc).mc.Interface.HW = mc.Interface.HW := by
  simp [Stop, hstopped]

/-- C4 at a concrete input: `Stop` on a module that was never started. -/
theorem C4_stop_when_stopped_witness :
    (Stop (stubEnv "linux") runOk (NewMacChanger eth0)).err = some .ErrAlreadyStopped ∧
    (Stop (stubEnv "linux") runOk (NewMacChanger eth0)).calls = [] :=
  have h := C4_stop_when_stopped (stubEnv "linux") runOk (NewMacChanger eth0) rfl
  ⟨h.1, h.2.1⟩

/-- C5: on a running module, when the command runner is invoked by `Stop` and
fails with `e`, `Stop` returns exactly `e`, the module is still running and the
interface's hardware address is not changed. -/
theorem C5_stop_command_failure (env : Env) (run : Runner) (mc : MacChanger) (e : ExtError)
    (hrunning : mc.Started = true)
    (hfail : ∃ args, Event.Exec "ifconfig" args ∈ (Stop env run mc).calls ∧
      run "ifconfig" args = some e) :
    (Stop env run mc).err = some (.foreign e) ∧
    (Stop env run mc).mc.Started = true ∧
    (Stop env run mc).mc.Interface.HW = mc.Interface.HW := by
  obtain ⟨args, hmem, hrun⟩ := hfail
  rcases setMac_cases env run mc.originalMac mc with
    ⟨a, _, ha, h⟩ | ⟨a, e1, _, ha, h⟩ | ⟨_, h⟩
  all_goals simp only [Stop, hrunning, h] at hmem ⊢
  · simp at hmem
    rw [hmem, ha] at hrun
    cases hrun
  · simp at hmem
    rw [hmem, ha] at hrun
    cases hrun
    simp [hrunning]
  · simp at hmem

/-- C5 at a concrete input: restoring `00:01:02:03:04:05` fails with
`permission denied` on linux. -/
theorem C5_stop_command_failure_witness :
    (Stop (stubEnv "linux") (runFail ⟨"permission denied"⟩)
      ⟨true, [0, 1, 2, 3, 4, 5], [1, 1, 1, 1, 1, 1], ⟨"eth0", [1, 1, 1, 1, 1, 1]⟩⟩).err
        = some (.foreign ⟨"permission denied"⟩) ∧
    (Stop (stubEnv "linux") (runFail ⟨"permission denied"⟩)
      ⟨true, [0, 1, 2, 3, 4, 5], [1, 1, 1, 1, 1, 1], ⟨"eth0", [1, 1, 1, 1, 1, 1]⟩⟩).mc.Started
        = true ∧
    (Stop (stubEnv "linux") (runFail ⟨"permission denied"⟩)
      ⟨true, [0, 1, 2, 3, 4, 5], [1, 1, 1, 1, 1, 1], ⟨"eth0", [1, 1, 1, 1, 1, 1]⟩⟩).mc.Interface.HW
        = [1, 1, 1, 1, 1, 1] :=
  C5_stop_command_failure (stubEnv "linux") (runFail ⟨"permission denied"⟩)
    ⟨true, [0, 1, 2, 3, 4, 5], [1, 1, 1, 1, 1, 1], ⟨"eth0", [1, 1, 1, 1, 1, 1]⟩⟩
    ⟨"permission denied"⟩ rfl
    ⟨["eth0", "hw", "ether", "00:01:02:03:04:05"], by decide, rfl⟩

/-- C6: for every interface name and hardware address `m`, when the OS
identifier contains `bsd` or equals `darwin` the command `setMac` runs is
`ifconfig` with arguments exactly `[name, "ether", text m]`, and when it is
`linux` it is `ifconfig` with arguments exactly `[name, "hw", "ether", text m]`,
where `text m` is the octets of `m` in two lower-case hex digits each, joined by
colons.  For `eth0` and `AA:BB:CC:DD:EE:FF` the arguments are
`["eth0","ether","aa:bb:cc:dd:ee:ff"]` and `["eth0","hw","ether","aa:bb:cc:dd:ee:ff"]`. -/
theorem C6_setMac_command (env : Env) (run : Runner) (m : HardwareAddr) (mc : MacChanger) :
    (stringsContains env.GOOS "bsd" = true ∨ env.GOOS = "darwin" →
      (setMac env run m mc).calls =
        [.Exec "ifconfig" [mc.Interface.name, "ether", HardwareAddr.String m]]) ∧
    (env.GOOS = "linux" →
      (setMac env run m mc).calls =
        [.Exec "ifconfig" [mc.Interface.name, "hw", "ether", HardwareAddr.String m]]) ∧
    HardwareAddr.String m = String.mk (List.intercalate [':'] (m.map hexOctet)) ∧
    (∀ b c, c ∈ hexOctet b → c ∈ "0123456789abcdef".toList) ∧
    ((mc.Interface.name = "eth0" ∧ m = [0xAA, 0xBB, 0xCC, 0xDD, 0xEE, 0xFF]) →
      ((stringsContains env.GOOS "bsd" = true ∨ env.GOOS = "darwin" →
        (setMac env run m mc).calls =
          [.Exec "ifconfig" ["eth0", "ether", "aa:bb:cc:dd:ee:ff"]]) ∧
       (env.GOOS = "linux" →
        (setMac env run m mc).calls =
          [.Exec "ifconfig" ["eth0", "hw", "ether", "aa:bb:cc:dd:ee:ff"]]))) := by
  have hbsd : stringsContains env.GOOS "bsd" = true ∨ env.GOOS = "darwin" →
      (setMac env run m mc).calls =
        [.Exec "ifconfig" [mc.Interface.name, "ether", HardwareAddr.String m]] := by
    intro h
    simp only [setMac, if_pos h]
    cases run "ifconfig" [mc.Interface.name, "ether", HardwareAddr.String m] <;> rfl
  have hlinux : env.GOOS = "linux" →
      (setMac env run m mc).calls =
        [.Exec "ifconfig" [mc.Interface.name, "hw", "ether", HardwareAddr.String m]] := by
    intro h
    have h1 : ¬ (stringsContains env.GOOS "bsd" = true ∨ env.GOOS = "darwin") := by
      rw [h]; decide
    simp only [setMac, if_neg h1, if_pos h]
    cases run "ifconfig" [mc.Interface.name, "hw", "ether", HardwareAddr.String m] <;> rfl
  have htext : HardwareAddr.String [0xAA, 0xBB, 0xCC, 0xDD, 0xEE, 0xFF] = "aa:bb:cc:dd:ee:ff" := by
    decide
  refine ⟨hbsd, hlinux, HardwareAddr.String_eq m, fun b c h => hexOctet_mem b c h, ?_⟩
  rintro ⟨hn, hm⟩
  subst hm
  rw [hn, htext] at hbsd hlinux
  exact ⟨hbsd, hlinux⟩

/-- C6 at the golden cases: `eth0` and `AA:BB:CC:DD:EE:FF` on freebsd, on darwin
and on linux, with a runner that succeeds. -/
theorem C6_setMac_command_witness :
    (setMac (stubEnv "freebsd") runOk [0xAA, 0xBB, 0xCC, 0xDD, 0xEE, 0xFF]
      (NewMacChanger eth0)).calls = [.Exec "ifconfig" ["eth0", "ether", "aa:bb:cc:dd:ee:ff"]] ∧
    (setMac (stubEnv "darwin") runOk [0xAA, 0xBB, 0xCC, 0xDD, 0xEE, 0xFF]
      (NewMacChanger eth0)).calls = [.Exec "ifconfig" ["eth0", "ether", "aa:bb:cc:dd:ee:ff"]] ∧
    (setMac (stubEnv "linux") runOk [0xAA, 0xBB, 0xCC, 0xDD, 0xEE, 0xFF]
      (NewMacChanger eth0)).calls =
        [.Exec "ifconfig" ["eth0", "hw", "ether", "aa:bb:cc:dd:ee:ff"]] :=
  ⟨((C6_setMac_command (stubEnv "freebsd") runOk [0xAA, 0xBB, 0xCC, 0xDD, 0xEE, 0xFF]
      (NewMacChanger eth0)).2.2.2.2 ⟨rfl, rfl⟩).1 (Or.inl (by decide)),
   ((C6_setMac_command (stubEnv "darwin") runOk [0xAA, 0xBB, 0xCC, 0xDD, 0xEE, 0xFF]
      (NewMacChanger eth0)).2.2.2.2 ⟨rfl, rfl⟩).1 (Or.inr rfl),
   ((C6_setMac_command (stubEnv "linux") runOk [0xAA, 0xBB, 0xCC, 0xDD, 0xEE, 0xFF]
      (NewMacChanger eth0)).2.2.2.2 ⟨rfl, rfl⟩).2 rfl⟩

/-- C7: `setMac` fails with the unsupported-platform error if and only if the OS
identifier neither contains `bsd`, nor equals `darwin`, nor equals `linux`; in
that case no external command is invoked and the module, with the interface's
hardware address, is unchanged; and a `Start` that returns this error has
invoked no external command and leaves the module stopped with the interface's
hardware address unchanged. -/
theorem C7_unsupported_platform (env : Env) (run : Runner) (mac : HardwareAddr)
    (mc : MacChanger) :
    ((∃ os, (setMac env run mac mc).err = some (.unsupportedOS os)) ↔
      (stringsContains env.GOOS "bsd" = false ∧ env.GOOS ≠ "darwin" ∧ env.GOOS ≠ "linux")) ∧
    ((stringsContains env.GOOS "bsd" = false ∧ env.GOOS ≠ "darwin" ∧ env.GOOS ≠ "linux") →
      (setMac env run mac mc).err = some (.unsupportedOS env.GOOS) ∧
      (setMac env run mac mc).calls = [] ∧
      (setMac env run mac mc).mc = mc) ∧
    (∀ param os, (Start env param run mc).err = some (.unsupportedOS os) →
      (∀ c a, Event.Exec c a ∉ (Start env param run mc).calls) ∧
      (Start env param run mc).mc.Started = false ∧
      (Start env param run mc).mc.Interface.HW = mc.Interface.HW) := by
  have hun : (stringsContains env.GOOS "bsd" = false ∧ env.GOOS ≠ "darwin" ∧
      env.GOOS ≠ "linux") ↔ ¬ supportedOS env.GOOS := by
    unfold supportedOS
    cases stringsContains env.GOOS "bsd" <;> simp
  refine ⟨?_, ?_, ?_⟩
  · rw [hun]
    rcases setMac_cases env run mac mc with ⟨a, hs, ha, h⟩ | ⟨a, e1, hs, ha, h⟩ | ⟨hn, h⟩
    · rw [h]; simp [hs]
    · rw [h]; simp [hs]
    · rw [h]; simp [hn]
  · rw [hun]
    intro hn
    rcases setMac_cases env run mac mc with ⟨a, hs, ha, h⟩ | ⟨a, e1, hs, ha, h⟩ | ⟨_, h⟩
    · exact absurd hs hn
    · exact absurd hs hn
    · rw [h]; simp
  · intro param os
    rcases Start_cases env param run mc with
      ⟨_, h⟩ | ⟨_, e, _, h⟩ | ⟨_, t, e, _, _, h⟩ | ⟨hst, t, _, _, _, h⟩ |
      ⟨_, t, a, e, _, _, _, _, h⟩ | ⟨_, t, a, _, _, _, _, h⟩
    all_goals rw [h]
    all_goals simp
    exact fun _ => hst

/-- C7 at `plan9`: `setMac` returns the unsupported-platform error, invokes no
command and leaves the module as it was. -/
theorem C7_unsupported_platform_witness :
    (setMac (stubEnv "plan9") runOk [0x11, 0x22, 0x33, 0x44, 0x55, 0x66]
      (NewMacChanger eth0)).err = some (.unsupportedOS "plan9") ∧
    (setMac (stubEnv "plan9") runOk [0x11, 0x22, 0x33, 0x44, 0x55, 0x66]
      (NewMacChanger eth0)).calls = [] ∧
    (setMac (stubEnv "plan9") runOk [0x11, 0x22, 0x33, 0x44, 0x55, 0x66]
      (NewMacChanger eth0)).mc = NewMacChanger eth0 :=
  (C7_unsupported_platform (stubEnv "plan9") runOk [0x11, 0x22, 0x33, 0x44, 0x55, 0x66]
    (NewMacChanger eth0)).2.1 (by decide)

/-- C8, as stated, fails: a module that has been started and stopped once holds
`fakeMac = 11:22:33:44:55:66`; a `Configure` whose address does not parse returns
the parser's error and leaves `fakeMac` nil. -/
theorem C8_counterexample :
    (Stop (stubEnv "linux") runOk
      (Start (stubEnv "linux") (.ok "11:22:33:44:55:66") runOk (NewMacChanger eth0)).mc).mc
      = ⟨false, [0, 1, 2, 3, 4, 5], [0x11, 0x22, 0x33, 0x44, 0x55, 0x66], eth0⟩ ∧
    (Configure (stubEnv "linux") (.ok "11:22:33:44:55:66:77")
      ⟨false, [0, 1, 2, 3, 4, 5], [0x11, 0x22, 0x33, 0x44, 0x55, 0x66], eth0⟩).err
      = some (.foreign ⟨"invalid MAC address"⟩) ∧
    (Configure (stubEnv "linux") (.ok "11:22:33:44:55:66:77")
      ⟨false, [0, 1, 2, 3, 4, 5], [0x11, 0x22, 0x33, 0x44, 0x55, 0x66], eth0⟩).mc.fakeMac = [] ∧
    (Configure (stubEnv "linux") (.ok "11:22:33:44:55:66:77")
      ⟨false, [0, 1, 2, 3, 4, 5], [0x11, 0x22, 0x33, 0x44, 0x55, 0x66], eth0⟩).mc
      ≠ ⟨false, [0, 1, 2, 3, 4, 5], [0x11, 0x22, 0x33, 0x44, 0x55, 0x66], eth0⟩ := by
  decide

/-- C8, amended: when `Configure` returns an error, the running flag,
`originalMac` and the interface (name and hardware address) are what they were;
`fakeMac` is unchanged when the parameter lookup failed, and when the address did
not parse `fakeMac` holds the address value the parser returned with its error. -/
theorem C8_configure_failure_frame (env : Env) (param : Except ExtError String)
    (mc : MacChanger) (e : Error) (herr : (Configure env param mc).err = some e) :
    (Configure env param mc).mc.Started = mc.Started ∧
    (Configure env param mc).mc.originalMac = mc.originalMac ∧
    (Configure env param mc).mc.Interface = mc.Interface ∧
    (∀ e1, param = .error e1 → (Configure env param mc).mc = mc) ∧
    (∀ s, param = .ok s →
      (Configure env param mc).mc.fakeMac = (env.ParseMAC (env.NormalizeMac s)).1) := by
  rcases Configure_cases env param mc with ⟨e1, hp, h⟩ | ⟨s, e1, hp, _, h⟩ | ⟨s, _, _, h⟩
  · rw [h]; simp [hp]
  · rw [h]; simp [hp]
  · rw [h] at herr; simp at herr

/-- C8, amended, at two concrete inputs: a lookup that fails and an address that
does not parse. -/
theorem C8_configure_failure_frame_witness :
    (Configure (stubEnv "linux") (.error ⟨"parameter not found"⟩)
      ⟨false, [0, 1, 2, 3, 4, 5], [0x11, 0x22, 0x33, 0x44, 0x55, 0x66], eth0⟩).mc
      = ⟨false, [0, 1, 2, 3, 4, 5], [0x11, 0x22, 0x33, 0x44, 0x55, 0x66], eth0⟩ ∧
    (Configure (stubEnv "linux") (.ok "11:22:33:44:55:66:77")
      ⟨false, [0, 1, 2, 3, 4, 5], [0x11, 0x22, 0x33, 0x44, 0x55, 0x66], eth0⟩).mc.originalMac
      = [0, 1, 2, 3, 4, 5] :=
  ⟨(C8_configure_failure_frame (stubEnv "linux") (.error ⟨"parameter not found"⟩)
      ⟨false, [0, 1, 2, 3, 4, 5], [0x11, 0x22, 0x33, 0x44, 0x55, 0x66], eth0⟩
      (.foreign ⟨"parameter not found"⟩) (by decide)).2.2.2.1 _ rfl,
   (C8_configure_failure_frame (stubEnv "linux") (.ok "11:22:33:44:55:66:77")
      ⟨false, [0, 1, 2, 3, 4, 5], [0x11, 0x22, 0x33, 0x44, 0x55, 0x66], eth0⟩
      (.foreign ⟨"invalid MAC address"⟩) (by decide)).2.1⟩

/-- C9, as stated, fails: after a `Start` that succeeds from interface address
`00:01:02:03:04:05`, a direct call of `Configure` that succeeds overwrites
`originalMac` with the fake address; the module is running, `originalMac` is not
the address from before the `Start`, and a successful `Stop` puts the fake address
back on the interface. -/
theorem C9_counterexample :
    (runTracked (stubEnv "linux") ⟨NewMacChanger eth0, []⟩
      [.Start (.ok "11:22:33:44:55:66") runOk, .Configure (.ok "11:22:33:44:55:66")])
      = ⟨⟨true, [0x11, 0x22, 0x33, 0x44, 0x55, 0x66], [0x11, 0x22, 0x33, 0x44, 0x55, 0x66],
          ⟨"eth0", [0x11, 0x22, 0x33, 0x44, 0x55, 0x66]⟩⟩, [0, 1, 2, 3, 4, 5]⟩ ∧
    (runTracked (stubEnv "linux") ⟨NewMacChanger eth0, []⟩
      [.Start (.ok "11:22:33:44:55:66") runOk,
       .Configure (.ok "11:22:33:44:55:66")]).mc.originalMac
      ≠ (runTracked (stubEnv "linux") ⟨NewMacChanger eth0, []⟩
          [.Start (.ok "11:22:33:44:55:66") runOk,
           .Configure (.ok "11:22:33:44:55:66")]).preStart ∧
    (Stop (stubEnv "linux") runOk
      (runTracked (stubEnv "linux") ⟨NewMacChanger eth0, []⟩
        [.Start (.ok "11:22:33:44:55:66") runOk,
         .Configure (.ok "11:22:33:44:55:66")]).mc).err = none ∧
    (Stop (stubEnv "linux") runOk
      (runTracked (stubEnv "linux") ⟨NewMacChanger eth0, []⟩
        [.Start (.ok "11:22:33:44:55:66") runOk,
         .Configure (.ok "11:22:33:44:55:66")]).mc).mc.Interface.HW
      = [0x11, 0x22, 0x33, 0x44, 0x55, 0x66] := by
  decide

/-- C9, amended: for every sequence of `Configure`, `Start` and `Stop` calls from
a stopped module, with any configuration values and runner outcomes, in which no
direct call of `Configure` succeeds while the module is running: whenever the
module is running, `originalMac` is the interface's hardware address as it was
just before the `Start` that entered the running state, and a `Stop` that
succeeds puts that address back on the interface and stops the module. -/
theorem C9_originalMac_is_preStart (env : Env) (cs : List Call) (mc0 : MacChanger)
    (g0 : HardwareAddr) (hstopped : mc0.Started = false)
    (hguard : configureGuarded env mc0 cs = true) :
    (runTracked env ⟨mc0, g0⟩ cs).mc.Started = true →
      (runTracked env ⟨mc0, g0⟩ cs).mc.originalMac = (runTracked env ⟨mc0, g0⟩ cs).preStart ∧
      ∀ run, (Stop env run (runTracked env ⟨mc0, g0⟩ cs).mc).err = none →
        (Stop env run (runTracked env ⟨mc0, g0⟩ cs).mc).mc.Interface.HW
          = (runTracked env ⟨mc0, g0⟩ cs).preStart ∧
        (Stop env run (runTracked env ⟨mc0, g0⟩ cs).mc).mc.Started = false := by
  intro hrunning
  have horig := runTracked_preStart env cs ⟨mc0, g0⟩
    (fun h => by simp [hstopped] at h) hguard hrunning
  refine ⟨horig, ?_⟩
  intro run hok
  rcases Stop_cases env run (runTracked env ⟨mc0, g0⟩ cs).mc with
    ⟨_, h⟩ | ⟨_, _, h⟩ | ⟨_, a, e, _, _, h⟩ | ⟨_, a, _, _, h⟩
  · rw [h] at hok; simp at hok
  · rw [h] at hok; simp at hok
  · rw [h] at hok; simp at hok
  · rw [h]; exact ⟨horig, rfl⟩

/-- C9, amended, at a concrete sequence: a `Configure` while stopped, a `Start`
that succeeds, a second `Start`, a `Stop` whose command fails, and a direct
`Configure` whose lookup fails; the module is running with `originalMac` equal to
`00:01:02:03:04:05`, the address before the `Start`. -/
theorem C9_originalMac_is_preStart_witness :
    (runTracked (stubEnv "linux") ⟨NewMacChanger eth0, []⟩
      [.Configure (.ok "11:22:33:44:55:66"), .Start (.ok "11:22:33:44:55:66") runOk,
       .Start (.ok "11:22:33:44:55:66") runOk, .Stop (runFail ⟨"permission denied"⟩),
       .Configure (.error ⟨"parameter not found"⟩)]).mc.Started = true ∧
    (runTracked (stubEnv "linux") ⟨NewMacChanger eth0, []⟩
      [.Configure (.ok "11:22:33:44:55:66"), .Start (.ok "11:22:33:44:55:66") runOk,
       .Start (.ok "11:22:33:44:55:66") runOk, .Stop (runFail ⟨"permission denied"⟩),
       .Configure (.error ⟨"parameter not found"⟩)]).preStart = [0, 1, 2, 3, 4, 5] ∧
    (runTracked (stubEnv "linux") ⟨NewMacChanger eth0, []⟩
      [.Configure (.ok "11:22:33:44:55:66"), .Start (.ok "11:22:33:44:55:66") runOk,
       .Start (.ok "11:22:33:44:55:66") runOk, .Stop (runFail ⟨"permission denied"⟩),
       .Configure (.error ⟨"parameter not found"⟩)]).mc.originalMac
      = (runTracked (stubEnv "linux") ⟨NewMacChanger eth0, []⟩
          [.Configure (.ok "11:22:33:44:55:66"), .Start (.ok "11:22:33:44:55:66") runOk,
           .Start (.ok "11:22:33:44:55:66") runOk, .Stop (runFail ⟨"permission denied"⟩),
           .Configure (.error ⟨"parameter not found"⟩)]).preStart :=
  ⟨by decide, by decide,
   (C9_originalMac_is_preStart (stubEnv "linux")
      [.Configure (.ok "11:22:33:44:55:66"), .Start (.ok "11:22:33:44:55:66") runOk,
       .Start (.ok "11:22:33:44:55:66") runOk, .Stop (runFail ⟨"permission denied"⟩),
       .Configure (.error ⟨"parameter not found"⟩)]
      (NewMacChanger eth0) [] rfl (by decide) (by decide)).1⟩

/-- C10, as stated, fails: a `Start` from the initial module whose command fails
returns the command's error, yet `fakeMac` and `originalMac`, both nil before the
call, hold the parsed address and the interface's address after it. -/
theorem C10_counterexample :
    (Start (stubEnv "linux") (.ok "11:22:33:44:55:66") (runFail ⟨"permission denied"⟩)
      (NewMacChanger eth0)).err = some (.foreign ⟨"permission denied"⟩) ∧
    (NewMacChanger eth0).fakeMac = [] ∧
    (NewMacChanger eth0).originalMac = [] ∧
    (Start (stubEnv "linux") (.ok "11:22:33:44:55:66") (runFail ⟨"permission denied"⟩)
      (NewMacChanger eth0)).mc.fakeMac = [0x11, 0x22, 0x33, 0x44, 0x55, 0x66] ∧
    (Start (stubEnv "linux") (.ok "11:22:33:44:55:66") (runFail ⟨"permission denied"⟩)
      (NewMacChanger eth0)).mc.originalMac = [0, 1, 2, 3, 4, 5] ∧
    (Start (stubEnv "linux") (.ok "11:22:33:44:55:66") (runFail ⟨"permission denied"⟩)
      (NewMacChanger eth0)).mc ≠ NewMacChanger eth0 := by
  decide

/-- C10, amended: when `Start` returns an error, the running flag and the
interface (name and hardware address) are what they were before the call, and
these two change only in a call whose external command reported success.
`fakeMac` and `originalMac` are unchanged when the module was already running or
the parameter lookup failed; otherwise `Configure` has run: `fakeMac` holds the
address value returned by the parser, and `originalMac` holds the interface's
hardware address when the address parsed and is unchanged when it did not. -/
theorem C10_start_failure_frame (env : Env) (param : Except ExtError String) (run : Runner)
    (mc : MacChanger) :
    (∀ e, (Start env param run mc).err = some e →
      (Start env param run mc).mc.Started = mc.Started ∧
      (Start env param run mc).mc.Interface = mc.Interface ∧
      (mc.Started = true → (Start env param run mc).mc = mc) ∧
      (∀ e1, param = .error e1 → (Start env param run mc).mc = mc) ∧
      (mc.Started = false → ∀ s, param = .ok s →
        (Start env param run mc).mc.fakeMac = (env.ParseMAC (env.NormalizeMac s)).1 ∧
        ((env.ParseMAC (env.NormalizeMac s)).2 = none →
          (Start env param run mc).mc.originalMac = mc.Interface.HW) ∧
        ((env.ParseMAC (env.NormalizeMac s)).2 ≠ none →
          (Start env param run mc).mc.originalMac = mc.originalMac))) ∧
    ((Start env param run mc).mc.Started ≠ mc.Started ∨
      (Start env param run mc).mc.Interface ≠ mc.Interface →
      (Start env param run mc).err = none ∧
      ∃ args, Event.Exec "ifconfig" args ∈ (Start env param run mc).calls ∧
        run "ifconfig" args = none) := by
  rcases Start_cases env param run mc with
    ⟨hst, h⟩ | ⟨hst, e, hp, h⟩ | ⟨hst, s, e, hp, hq, h⟩ | ⟨hst, s, hp, hq, _, h⟩ |
    ⟨hst, s, a, e, hp, hq, _, _, h⟩ | ⟨hst, s, a, hp, hq, _, ha, h⟩
  · rw [h]; simp [hst]
  · rw [h]; simp [hst, hp]
  · rw [h]; simp [hst, hp, hq]
  · rw [h]; simp [hst, hp, hq]
  · rw [h]; simp [hst, hp, hq]
  · rw [h]; simp [hst, hp, hq, ha]

/-- C10, amended, at a concrete input: the command fails on linux; the module is
still stopped and the interface still has `00:01:02:03:04:05`. -/
theorem C10_start_failure_frame_witness :
    (Start (stubEnv "linux") (.ok "11:22:33:44:55:66") (runFail ⟨"permission denied"⟩)
      (NewMacChanger eth0)).mc.Started = false ∧
    (Start (stubEnv "linux") (.ok "11:22:33:44:55:66") (runFail ⟨"permission denied"⟩)
      (NewMacChanger eth0)).mc.Interface = eth0 :=
  have h := (C10_start_failure_frame (stubEnv "linux") (.ok "11:22:33:44:55:66")
    (runFail ⟨"permission denied"⟩) (NewMacChanger eth0)).1
    (.foreign ⟨"permission denied"⟩) (by decide)
  ⟨h.1, h.2.1⟩

/-- C11: the running flag changes only through `Start` and `Stop`.  `Configure`
never changes the running flag nor the interface's hardware address, whether it
succeeds or fails; `Start` either leaves the flag as it was or takes it from
stopped to running, and does the latter exactly when it returns no error; `Stop`
either leaves the flag as it was or takes it from running to stopped, and does
the latter exactly when it returns no error. -/
theorem C11_running_flag_transitions (env : Env) (param : Except ExtError String)
    (run : Runner) (mc : MacChanger) :
    ((Configure env param mc).mc.Started = mc.Started ∧
      (Configure env param mc).mc.Interface.HW = mc.Interface.HW) ∧
    (((Start env param run mc).mc.Started = mc.Started ∨
        (mc.Started = false ∧ (Start env param run mc).mc.Started = true)) ∧
      ((mc.Started = false ∧ (Start env param run mc).mc.Started = true) ↔
        (Start env param run mc).err = none)) ∧
    (((Stop env run mc).mc.Started = mc.Started ∨
        (mc.Started = true ∧ (Stop env run mc).mc.Started = false)) ∧
      ((mc.Started = true ∧ (Stop env run mc).mc.Started = false) ↔
        (Stop env run mc).err = none)) := by
  refine ⟨?_, ?_, ?_⟩
  · rcases Configure_cases env param mc with ⟨e1, _, h⟩ | ⟨s, e1, _, _, h⟩ | ⟨s, _, _, h⟩ <;>
      rw [h] <;> simp
  · rcases Start_cases env param run mc with
      ⟨hst, h⟩ | ⟨hst, e, _, h⟩ | ⟨hst, s, e, _, _, h⟩ | ⟨hst, s, _, _, _, h⟩ |
      ⟨hst, s, a, e, _, _, _, _, h⟩ | ⟨hst, s, a, _, _, _, _, h⟩ <;>
      rw [h] <;> simp [hst]
  · rcases Stop_cases env run mc with
      ⟨hst, h⟩ | ⟨hst, _, h⟩ | ⟨hst, a, e, _, _, h⟩ | ⟨hst, a, _, _, h⟩ <;>
      rw [h] <;> simp [hst]

/-- C12: on a stopped module, under any OS identifier, when resolving the
configured address fails with `e` (the parameter lookup fails with `e`, or the
address does not parse and the parser returns `e`), `Start` returns `e`, invokes
no external command, leaves the module stopped and leaves the interface's
hardware address as it was. -/
theorem C12_invalid_address_before_mutation (env : Env) (param : Except ExtError String)
    (run : Runner) (mc : MacChanger) (e : ExtError)
    (hstopped : mc.Started = false)
    (hresolve : param = .error e ∨
      ∃ s, param = .ok s ∧ (env.ParseMAC (env.NormalizeMac s)).2 = some e) :
    (Start env param run mc).err = some (.foreign e) ∧
    execCalls (Start env param run mc).calls = [] ∧
    (Start env param run mc).mc.Started = false ∧
    (Start env param run mc).mc.Interface.HW = mc.Interface.HW := by
  rcases Start_cases env param run mc with
    ⟨hst, h⟩ | ⟨hst, e1, hp, h⟩ | ⟨hst, s, e1, hp, hq, h⟩ | ⟨hst, s, hp, hq, _, h⟩ |
    ⟨hst, s, a, e1, hp, hq, _, _, h⟩ | ⟨hst, s, a, hp, hq, _, _, h⟩
  · rw [hstopped] at hst; cases hst
  · rcases hresolve with hr | ⟨s, hr, _⟩
    · rw [hr] at hp; cases hp
      rw [h]; simp [hstopped, execCalls]
    · rw [hr] at hp; cases hp
  · rcases hresolve with hr | ⟨s2, hr, hq2⟩
    · rw [hr] at hp; cases hp
    · rw [hr] at hp; cases hp
      rw [hq] at hq2; cases hq2
      rw [h]; simp [hstopped, execCalls]
  all_goals
    rcases hresolve with hr | ⟨s2, hr, hq2⟩
    · rw [hr] at hp; cases hp
    · rw [hr] at hp; cases hp
      rw [hq] at hq2; cases hq2

/-- C12 at two concrete inputs on an unsupported system: a lookup that fails,
and an address of seven octets that does not parse. -/
theorem C12_invalid_address_before_mutation_witness :
    (Start (stubEnv "plan9") (.error ⟨"parameter not found"⟩) runOk
      (NewMacChanger eth0)).err = some (.foreign ⟨"parameter not found"⟩) ∧
    (Start (stubEnv "plan9") (.ok "11:22:33:44:55:66:77") runOk
      (NewMacChanger eth0)).err = some (.foreign ⟨"invalid MAC address"⟩) ∧
    execCalls (Start (stubEnv "plan9") (.ok "11:22:33:44:55:66:77") runOk
      (NewMacChanger eth0)).calls = [] ∧
    (Start (stubEnv "plan9") (.ok "11:22:33:44:55:66:77") runOk
      (NewMacChanger eth0)).mc.Interface.HW = [0, 1, 2, 3, 4, 5] :=
  have h1 := C12_invalid_address_before_mutation (stubEnv "plan9")
    (.error ⟨"parameter not found"⟩) runOk (NewMacChanger eth0) ⟨"parameter not found"⟩
    rfl (Or.inl rfl)
  have h2 := C12_invalid_address_before_mutation (stubEnv "plan9")
    (.ok "11:22:33:44:55:66:77") runOk (NewMacChanger eth0) ⟨"invalid MAC address"⟩
    rfl (Or.inr ⟨"11:22:33:44:55:66:77", rfl, by decide⟩)
  ⟨h1.1, h2.1, h2.2.1, h2.2.2.2⟩

/-- C13: with the process runner recorded as a trace, every `Start` and every
`Stop` makes at most one invocation; a call that returns no error makes exactly
one, of `ifconfig`, with the arguments built for the current OS and interface
name from `fakeMac` (for `Start`, the address `Configure` has just stored) or
from `originalMac` (for `Stop`); a call rejected by its guard, by `Configure` or
by the platform check makes none. -/
theorem C13_one_command_per_call (env : Env) (param : Except ExtError String)
    (run : Runner) (mc : MacChanger) :
    ((execCalls (Start env param run mc).calls).length ≤ 1 ∧
      ((Start env param run mc).err = none →
        (Start env param run mc).mc.fakeMac = (Configure env param mc).mc.fakeMac ∧
        ∃ args,
          ifconfigArgs env.GOOS mc.Interface.name (Start env param run mc).mc.fakeMac
            = some args ∧
          execCalls (Start env param run mc).calls = [.Exec "ifconfig" args]) ∧
      (mc.Started = true ∨ (Configure env param mc).err ≠ none ∨ ¬ supportedOS env.GOOS →
        execCalls (Start env param run mc).calls = [])) ∧
    ((execCalls (Stop env run mc).calls).length ≤ 1 ∧
      ((Stop env run mc).err = none →
        ∃ args,
          ifconfigArgs env.GOOS mc.Interface.name mc.originalMac = some args ∧
          execCalls (Stop env run mc).calls = [.Exec "ifconfig" args]) ∧
      (mc.Started = false ∨ ¬ supportedOS env.GOOS →
        execCalls (Stop env run mc).calls = [])) := by
  constructor
  · obtain ⟨st, om, fm, ifc⟩ := mc
    cases st with
    | true => simp [Start, execCalls]
    | false =>
      rcases Configure_cases env param ⟨false, om, fm, ifc⟩ with
        ⟨e1, _, h⟩ | ⟨s, e1, _, _, h⟩ | ⟨s, _, _, h⟩
      · simp [Start, h, execCalls]
      · simp [Start, h, execCalls]
      · rcases setMac_cases_args env run (env.ParseMAC (env.NormalizeMac s)).1
          ⟨false, ifc.HW, (env.ParseMAC (env.NormalizeMac s)).1, ifc⟩ with
          ⟨a, ha, hr, h2⟩ | ⟨a, e1, ha, hr, h2⟩ | ⟨ha, hn, h2⟩
        · have hs : supportedOS env.GOOS := by
            by_contra hc
            rcases setMac_cases env run (env.ParseMAC (env.NormalizeMac s)).1
              ⟨false, ifc.HW, (env.ParseMAC (env.NormalizeMac s)).1, ifc⟩ with
              ⟨_, hs, _, _⟩ | ⟨_, _, hs, _, _⟩ | ⟨_, h3⟩
            · exact hc hs
            · exact hc hs
            · rw [h3] at h2; simp at h2
          simp at ha
          simp [Start, h, h2, execCalls, ha, hs]
        · have hs : supportedOS env.GOOS := by
            by_contra hc
            rcases setMac_cases env run (env.ParseMAC (env.NormalizeMac s)).1
              ⟨false, ifc.HW, (env.ParseMAC (env.NormalizeMac s)).1, ifc⟩ with
              ⟨_, hs, _, _⟩ | ⟨_, _, hs, _, _⟩ | ⟨_, h3⟩
            · exact hc hs
            · exact hc hs
            · rw [h3] at h2; simp at h2
          simp [Start, h, h2, execCalls, hs]
        · simp [Start, h, h2, execCalls]
  · obtain ⟨st, om, fm, ifc⟩ := mc
    cases st with
    | false => simp [Stop, execCalls]
    | true =>
      rcases setMac_cases_args env run om ⟨true, om, fm, ifc⟩ with
        ⟨a, ha, hr, h2⟩ | ⟨a, e1, ha, hr, h2⟩ | ⟨ha, hn, h2⟩
      · have hs : supportedOS env.GOOS := by
          by_contra hc
          rcases setMac_cases env run om ⟨true, om, fm, ifc⟩ with
            ⟨_, hs, _, _⟩ | ⟨_, _, hs, _, _⟩ | ⟨_, h3⟩
          · exact hc hs
          · exact hc hs
          · rw [h3] at h2; simp at h2
        simp at ha
        simp [Stop, h2, execCalls, ha, hs]
      · have hs : supportedOS env.GOOS := by
          by_contra hc
          rcases setMac_cases env run om ⟨true, om, fm, ifc⟩ with
            ⟨_, hs, _, _⟩ | ⟨_, _, hs, _, _⟩ | ⟨_, h3⟩
          · exact hc hs
          · exact hc hs
          · rw [h3] at h2; simp at h2
        simp [Stop, h2, execCalls, hs]
      · simp [Stop, h2, execCalls]

/-- C13 at concrete inputs on linux: a `Start` that succeeds runs the one
command built from the address just configured, the `Stop` after it runs the one
command built from the address saved, and a `Stop` on the initial module runs
none. -/
theorem C13_one_command_per_call_witness :
    execCalls (Start (stubEnv "linux") (.ok "11:22:33:44:55:66") runOk
      (NewMacChanger eth0)).calls
      = [.Exec "ifconfig" ["eth0", "hw", "ether", "11:22:33:44:55:66"]] ∧
    execCalls (Stop (stubEnv "linux") runOk
      ⟨true, [0, 1, 2, 3, 4, 5], [0x11, 0x22, 0x33, 0x44, 0x55, 0x66],
        ⟨"eth0", [0x11, 0x22, 0x33, 0x44, 0x55, 0x66]⟩⟩).calls
      = [.Exec "ifconfig" ["eth0", "hw", "ether", "00:01:02:03:04:05"]] ∧
    execCalls (Stop (stubEnv "linux") runOk (NewMacChanger eth0)).calls = [] := by
  have h1 := ((C13_one_command_per_call (stubEnv "linux") (.ok "11:22:33:44:55:66") runOk
    (NewMacChanger eth0)).1.2.1 (by decide)).2
  have h2 := (C13_one_command_per_call (stubEnv "linux") (.ok "11:22:33:44:55:66") runOk
    ⟨true, [0, 1, 2, 3, 4, 5], [0x11, 0x22, 0x33, 0x44, 0x55, 0x66],
      ⟨"eth0", [0x11, 0x22, 0x33, 0x44, 0x55, 0x66]⟩⟩).2.2.1 (by decide)
  have h3 := (C13_one_command_per_call (stubEnv "linux") (.ok "11:22:33:44:55:66") runOk
    (NewMacChanger eth0)).2.2.2 (Or.inl rfl)
  obtain ⟨a1, e1, c1⟩ := h1
  obtain ⟨a2, e2, c2⟩ := h2
  refine ⟨?_, ?_, h3⟩
  · rw [c1]
    have : a1 = ["eth0", "hw", "ether", "11:22:33:44:55:66"] :=
      Option.some.inj (e1.symm.trans (by decide))
    rw [this]
  · rw [c2]
    have : a2 = ["eth0", "hw", "ether", "00:01:02:03:04:05"] :=
      Option.some.inj (e2.symm.trans (by decide))
    rw [this]

/-- C16: a `Stop` that fails does not lose the original address.  From the module
a successful `Start` leaves, started with the interface at address `A`, any
number of `Stop` calls whose command fails followed by one `Stop` whose command
succeeds end with the module stopped and the interface's hardware address equal
to `A`; and no `Stop` changes `originalMac` or looks the configuration up. -/
theorem C16_failed_stop_keeps_original (env : Env) (param : Except ExtError String)
    (run0 : Runner) (mc0 : MacChanger) (A : HardwareAddr) (fails : List Runner)
    (rok : Runner)
    (hA : mc0.Interface.HW = A)
    (hstart : (Start env param run0 mc0).err = none)
    (hfails : ∀ run ∈ fails, ∀ a, run "ifconfig" a ≠ none)
    (hok : ∀ a, rok "ifconfig" a = none) :
    (Stop env rok (stopAll env (Start env param run0 mc0).mc fails)).err = none ∧
    (Stop env rok (stopAll env (Start env param run0 mc0).mc fails)).mc.Started = false ∧
    (Stop env rok (stopAll env (Start env param run0 mc0).mc fails)).mc.Interface.HW = A ∧
    (∀ run mc, (Stop env run mc).mc.originalMac = mc.originalMac ∧
      ∀ name, Event.StringParam name ∉ (Stop env run mc).calls) := by
  have hframe : ∀ run mc, (Stop env run mc).mc.originalMac = mc.originalMac ∧
      ∀ name, Event.StringParam name ∉ (Stop env run mc).calls := by
    intro run mc
    rcases Stop_cases env run mc with
      ⟨_, h⟩ | ⟨_, _, h⟩ | ⟨_, a, e, _, _, h⟩ | ⟨_, a, _, _, h⟩ <;>
      rw [h] <;> simp
  rw [stopAll_of_no_success env fails _ hfails]
  rcases Start_cases env param run0 mc0 with
    ⟨_, h⟩ | ⟨_, e, _, h⟩ | ⟨_, s, e, _, _, h⟩ | ⟨_, s, _, _, _, h⟩ |
    ⟨_, s, a, e, _, _, _, _, h⟩ | ⟨_, s, a, _, _, hs, _, h⟩
  · rw [h] at hstart; simp at hstart
  · rw [h] at hstart; simp at hstart
  · rw [h] at hstart; simp at hstart
  · rw [h] at hstart; simp at hstart
  · rw [h] at hstart; simp at hstart
  · obtain ⟨h1, h2⟩ := Stop_of_run_ok env rok (Start env param run0 mc0).mc
      (by rw [h]) hs hok
    refine ⟨h1, by rw [h2], ?_, hframe⟩
    rw [h2, h]
    exact hA

/-- C16 at a concrete input on linux: a `Start` from `00:01:02:03:04:05`, two
`Stop` calls that fail, then one that succeeds. -/
theorem C16_failed_stop_keeps_original_witness :
    (Stop (stubEnv "linux") runOk
      (stopAll (stubEnv "linux")
        (Start (stubEnv "linux") (.ok "11:22:33:44:55:66") runOk (NewMacChanger eth0)).mc
        [runFail ⟨"permission denied"⟩, runFail ⟨"device busy"⟩])).err = none ∧
    (Stop (stubEnv "linux") runOk
      (stopAll (stubEnv "linux")
        (Start (stubEnv "linux") (.ok "11:22:33:44:55:66") runOk (NewMacChanger eth0)).mc
        [runFail ⟨"permission denied"⟩, runFail ⟨"device busy"⟩])).mc.Started = false ∧
    (Stop (stubEnv "linux") runOk
      (stopAll (stubEnv "linux")
        (Start (stubEnv "linux") (.ok "11:22:33:44:55:66") runOk (NewMacChanger eth0)).mc
        [runFail ⟨"permission denied"⟩, runFail ⟨"device busy"⟩])).mc.Interface.HW
      = [0, 1, 2, 3, 4, 5] :=
  have h := C16_failed_stop_keeps_original (stubEnv "linux") (.ok "11:22:33:44:55:66") runOk
    (NewMacChanger eth0) [0, 1, 2, 3, 4, 5]
    [runFail ⟨"permission denied"⟩, runFail ⟨"device busy"⟩] runOk rfl (by decide)
    (by
      intro run hmem a
      simp only [List.mem_cons, List.mem_singleton, List.not_mem_nil, or_false] at hmem
      rcases hmem with rfl | rfl <;> simp [runFail])
    (fun _ => rfl)
  ⟨h.1, h.2.1, h.2.2.1⟩

/-- C17: for every sequence of `Start` and `Stop` calls from the initial stopped
module (`Configure` being called from `Start` only, and the module being the only
writer of the interface's address), whenever the module is running the
interface's hardware address equals `fakeMac`, and whenever it is stopped after
at least one `Start` that succeeded the interface's hardware address equals
`originalMac`. -/
theorem C17_interface_address_invariant (env : Env) (iface : Endpoint) (cs : List Call)
    (honly : startStopOnly cs = true) :
    ((runHistory env ⟨NewMacChanger iface, false⟩ cs).mc.Started = true →
      (runHistory env ⟨NewMacChanger iface, false⟩ cs).mc.Interface.HW
        = (runHistory env ⟨NewMacChanger iface, false⟩ cs).mc.fakeMac) ∧
    ((runHistory env ⟨NewMacChanger iface, false⟩ cs).mc.Started = false →
      (runHistory env ⟨NewMacChanger iface, false⟩ cs).started = true →
      (runHistory env ⟨NewMacChanger iface, false⟩ cs).mc.Interface.HW
        = (runHistory env ⟨NewMacChanger iface, false⟩ cs).mc.originalMac) :=
  runHistory_address env cs ⟨NewMacChanger iface, false⟩ honly
    (fun h => by simp [NewMacChanger] at h) (fun _ h => by simp at h)

/-- C17 at two concrete sequences on linux: after a `Start` that succeeds and a
`Stop` that fails the module is running with the fake address on the interface;
after a further `Stop` that succeeds and a `Start` whose address does not parse
it is stopped with the original address on the interface. -/
theorem C17_interface_address_invariant_witness :
    (runHistory (stubEnv "linux") ⟨NewMacChanger eth0, false⟩
      [.Start (.ok "11:22:33:44:55:66") runOk,
       .Stop (runFail ⟨"permission denied"⟩)]).mc.Interface.HW
      = (runHistory (stubEnv "linux") ⟨NewMacChanger eth0, false⟩
          [.Start (.ok "11:22:33:44:55:66") runOk,
           .Stop (runFail ⟨"permission denied"⟩)]).mc.fakeMac ∧
    (runHistory (stubEnv "linux") ⟨NewMacChanger eth0, false⟩
      [.Start (.ok "11:22:33:44:55:66") runOk, .Stop (runFail ⟨"permission denied"⟩),
       .Stop runOk, .Start (.ok "11:22:33:44:55:66:77") runOk]).mc.Interface.HW
      = (runHistory (stubEnv "linux") ⟨NewMacChanger eth0, false⟩
          [.Start (.ok "11:22:33:44:55:66") runOk, .Stop (runFail ⟨"permission denied"⟩),
           .Stop runOk, .Start (.ok "11:22:33:44:55:66:77") runOk]).mc.originalMac :=
  ⟨(C17_interface_address_invariant (stubEnv "linux") eth0
      [.Start (.ok "11:22:33:44:55:66") runOk, .Stop (runFail ⟨"permission denied"⟩)]
      (by decide)).1 (by decide),
   (C17_interface_address_invariant (stubEnv "linux") eth0
      [.Start (.ok "11:22:33:44:55:66") runOk, .Stop (runFail ⟨"permission denied"⟩),
       .Stop runOk, .Start (.ok "11:22:33:44:55:66:77") runOk]
      (by decide)).2 (by decide) (by decide)⟩

/-- C14 fails on the code: the session holds `11:22:33:44:55:66:77:88` (or an
address of twenty octets) for `mac.changer.address`.  The value has a part of
the form the validator asks for, so the validator accepts it; the lookup answers
it, whatever the random source; `net.ParseMAC` accepts it; and `Configure`
returns `nil` with a `fakeMac` of eight (or twenty) octets. -/
theorem C14_long_address_accepted (random : Nat → Nat) :
    addressRule "11:22:33:44:55:66:77:88" = true ∧
    addressRule "01:23:45:67:89:ab:cd:ef:00:00:01:23:45:67:89:ab:cd:ef:00:00" = true ∧
    (Configure (goEnv "linux") (StringParam random "11:22:33:44:55:66:77:88")
      (NewMacChanger eth0)).err = none ∧
    (Configure (goEnv "linux") (StringParam random "11:22:33:44:55:66:77:88")
      (NewMacChanger eth0)).mc.fakeMac = [0x11, 0x22, 0x33, 0x44, 0x55, 0x66, 0x77, 0x88] ∧
    (Configure (goEnv "linux")
      (StringParam random "01:23:45:67:89:ab:cd:ef:00:00:01:23:45:67:89:ab:cd:ef:00:00")
      (NewMacChanger eth0)).err = none ∧
    (Configure (goEnv "linux")
      (StringParam random "01:23:45:67:89:ab:cd:ef:00:00:01:23:45:67:89:ab:cd:ef:00:00")
      (NewMacChanger eth0)).mc.fakeMac.length = 20 := by
  have h8 : StringParam random "11:22:33:44:55:66:77:88" = .ok "11:22:33:44:55:66:77:88" := by
    simp only [StringParam]
    exact if_neg (by decide)
  have h20 : StringParam random "01:23:45:67:89:ab:cd:ef:00:00:01:23:45:67:89:ab:cd:ef:00:00"
      = .ok "01:23:45:67:89:ab:cd:ef:00:00:01:23:45:67:89:ab:cd:ef:00:00" := by
    simp only [StringParam]
    exact if_neg (by decide)
  rw [h8, h20]
  decide

end MacChanger
